import Mathlib

/-!
# CU context manager and soft-kernel dispatch loop

A shallow embedding of

* `runtime_src/core/common/api/context_mgr.cpp` (class `device_context_mgr`), and
* `runtime_src/core/edge/skd/sk_daemon.cpp` (function `softKernelLoop`),

followed by theorems about the embedded definitions.

Conventions.  Machine integers are naturals (reduced modulo `2 ^ w` where the
width matters).  C++ exceptions are values of `exception`; an operation returns
the state it leaves behind together with how it completed.  Calls into
collaborators that are not part of the translated files (the `xrt_core::device`
object, the XRT shim, the loaded kernel) are recorded in call logs and their
answers are parameters of the model.
-/

namespace context_mgr

/-! ## Data model of `context_mgr.cpp` -/

/-- Number of bits of a context slot set: `constexpr size_t max_cus = 129`. -/
def max_cus : Nat := 129

/-- The sentinel `std::numeric_limits<unsigned int>::max()` for 32-bit `unsigned int`. -/
def virtual_cu_idx : Nat := 2 ^ 32 - 1

/-- The members of `cuidx_type` that `context_mgr.cpp` reads.  The declaration
(`core/common/cuidx_type.h`) is not part of the translated files, so the three
members are kept as independent fields: no relation between them is assumed. -/
structure cuidx_type where
  index : Nat
  domain : Nat
  domain_index : Nat
deriving DecidableEq

/-- Exceptions that can leave `open` and `close`. -/
inductive exception where
  | runtime_error (what : String)
  | out_of_range
  | device_error (what : String)
deriving DecidableEq

/-- A `std::bitset<max_cus>`; only positions below `max_cus` can be reached
through `test`, `set` and `reset`. -/
abbrev bitset := Nat → Bool

/-- The member `std::bitset::test(pos)`, which throws `std::out_of_range` for `pos ≥ size()`. -/
def bitset.test (b : bitset) (pos : Nat) : Except exception Bool :=
  if pos < max_cus then .ok (b pos) else .error .out_of_range

/-- The member `std::bitset::set(pos)`. -/
def bitset.set (b : bitset) (pos : Nat) : Except exception bitset :=
  if pos < max_cus then .ok (fun i => if i = pos then true else b i) else .error .out_of_range

/-- The member `std::bitset::reset(pos)`. -/
def bitset.reset (b : bitset) (pos : Nat) : Except exception bitset :=
  if pos < max_cus then .ok (fun i => if i = pos then false else b i) else .error .out_of_range

/-- The two virtual members of `xrt_core::device` that the manager calls.  The
class is a collaborator outside the translated files: its behaviour on a
device state `D` is a parameter.  A call either returns the next device state
or throws. -/
structure device (D : Type) where
  open_context : D → Nat → Nat → Bool → Except String D
  close_context : D → Nat → Nat → Except String D

/-- The data members of `device_context_mgr`: the state reachable through
`m_device` and the map `m_d2ctx`.  `std::map::operator[]` value-initialises an
absent key, so the map is a total function whose default is the all-clear
bitset. -/
structure device_context_mgr (D : Type) where
  m_device : D
  m_d2ctx : Nat → bitset

/-- The constructor `device_context_mgr(device)`: an empty map. -/
def device_context_mgr.init {D : Type} (dev : D) : device_context_mgr D :=
  ⟨dev, fun _ _ => false⟩

/-- The member `get_ctx`: `m_d2ctx[ipidx.domain]`. -/
def get_ctx {D : Type} (m : device_context_mgr D) (ipidx : cuidx_type) : bitset :=
  m.m_d2ctx ipidx.domain

/-- The member `ctxidx`:
`ipidx.index == virtual_cu_idx ? max_cus - 1 : ipidx.domain_index`. -/
def ctxidx (ipidx : cuidx_type) : Nat :=
  if ipidx.index = virtual_cu_idx then max_cus - 1 else ipidx.domain_index

/-- Writing through the reference `ctx` returned by `get_ctx`, together with
the device state left by the device call. -/
def put_ctx {D : Type} (m : device_context_mgr D) (d : D) (ipidx : cuidx_type) (b : bitset) :
    device_context_mgr D :=
  ⟨d, fun dom => if dom = ipidx.domain then b else m.m_d2ctx dom⟩

/-- Calls made on `m_device`, with their arguments. -/
inductive dev_call where
  | open_context (uuid : Nat) (index : Nat) (shared : Bool)
  | close_context (uuid : Nat) (index : Nat)
deriving DecidableEq

/-- The value `std::cv_status` returned by `wait_for`. -/
inductive cv_status where
  | no_timeout
  | timeout
deriving DecidableEq

/-- One return of `m_cv.wait_for(ul, 100ms)`: its status, and what the other
threads did to the manager while the mutex was released. -/
structure wakeup (D : Type) where
  status : cv_status
  others : device_context_mgr D → device_context_mgr D

/-- How a call ended.  `waiting` means the call is still inside `wait_for`
because the list of wake-ups handed to the model is used up. -/
inductive completion where
  | returned
  | threw (e : exception)
  | waiting
deriving DecidableEq

/-- What a call of `open` or `close` leaves behind: the manager, the number of
`wait_for` calls it made, the device calls it made, and the number of
`notify_all` calls it made. -/
structure result (D : Type) where
  completion : completion
  mgr : device_context_mgr D
  waits : Nat
  calls : List dev_call
  notify_all : Nat

/-- One more `wait_for` call in front of the rest of the call. -/
def result.add_wait {D : Type} (r : result D) : result D :=
  ⟨r.completion, r.mgr, r.waits + 1, r.calls, r.notify_all⟩

/-- Lines 77-78 of `open`: the device call, then `ctx.set(idx)`. -/
def open_and_set {D : Type} (dev : device D) (uuid : Nat) (ipidx : cuidx_type) (shared : Bool)
    (m : device_context_mgr D) : result D :=
  match dev.open_context m.m_device uuid ipidx.index shared with
  | .error what =>
    ⟨.threw (.device_error what), m, 0, [.open_context uuid ipidx.index shared], 0⟩
  | .ok d =>
    match (get_ctx m ipidx).set (ctxidx ipidx) with
    | .error e =>
      ⟨.threw e, ⟨d, m.m_d2ctx⟩, 0, [.open_context uuid ipidx.index shared], 0⟩
    | .ok b =>
      ⟨.returned, put_ctx m d ipidx b, 0, [.open_context uuid ipidx.index shared], 0⟩

/-- The member `device_context_mgr::open`.  The list holds the returns of the
`wait_for` calls, in order; the loop `while (ctx.test(idx))` takes one per
round. -/
def device_context_mgr.open {D : Type} (dev : device D) (uuid : Nat) (ipidx : cuidx_type)
    (shared : Bool) : device_context_mgr D → List (wakeup D) → result D
  | m, [] =>
    match (get_ctx m ipidx).test (ctxidx ipidx) with
    | .error e => ⟨.threw e, m, 0, [], 0⟩
    | .ok true => ⟨.waiting, m, 1, [], 0⟩
    | .ok false => open_and_set dev uuid ipidx shared m
  | m, w :: rest =>
    match (get_ctx m ipidx).test (ctxidx ipidx) with
    | .error e => ⟨.threw e, m, 0, [], 0⟩
    | .ok true =>
      match w.status with
      | .timeout =>
        ⟨.threw (.runtime_error "aquiring cu context timed out"), w.others m, 1, [], 0⟩
      | .no_timeout =>
        (device_context_mgr.open dev uuid ipidx shared (w.others m) rest).add_wait
    | .ok false => open_and_set dev uuid ipidx shared m

/-- The member `device_context_mgr::close`. -/
def device_context_mgr.close {D : Type} (dev : device D) (uuid : Nat) (ipidx : cuidx_type)
    (m : device_context_mgr D) : result D :=
  match (get_ctx m ipidx).test (ctxidx ipidx) with
  | .error e => ⟨.threw e, m, 0, [], 0⟩
  | .ok false =>
    ⟨.threw (.runtime_error ("ctx " ++ toString ipidx.index ++ " not open")), m, 0, [], 0⟩
  | .ok true =>
    match dev.close_context m.m_device uuid ipidx.index with
    | .error what =>
      ⟨.threw (.device_error what), m, 0, [.close_context uuid ipidx.index], 0⟩
    | .ok d =>
      match (get_ctx m ipidx).reset (ctxidx ipidx) with
      | .error e => ⟨.threw e, ⟨d, m.m_d2ctx⟩, 0, [.close_context uuid ipidx.index], 0⟩
      | .ok b => ⟨.returned, put_ctx m d ipidx b, 0, [.close_context uuid ipidx.index], 1⟩

/-- A device that only counts, per CU index, the hardware contexts that are
open: `open_context` adds one, `close_context` takes one away, neither throws. -/
def context_counter : device (Nat → Int) where
  open_context := fun c _ index _ => .ok (fun i => if i = index then c i + 1 else c i)
  close_context := fun c _ index => .ok (fun i => if i = index then c i - 1 else c i)

/-- A return of `wait_for` during which no other thread touched the manager. -/
def alone {D : Type} (st : cv_status) : wakeup D :=
  ⟨st, fun m => m⟩

/-- The manager as the other threads leave it after a list of wake-ups. -/
def after_wakeups {D : Type} : device_context_mgr D → List (wakeup D) → device_context_mgr D
  | m, [] => m
  | m, w :: rest => after_wakeups (w.others m) rest

/-- Every wake-up of the list is a notification (`no_timeout`) after which the
bit of `ipidx` is still set. -/
def notified_still_set {D : Type} (ipidx : cuidx_type) :
    device_context_mgr D → List (wakeup D) → Prop
  | _, [] => True
  | m, w :: rest =>
    w.status = .no_timeout ∧ (get_ctx (w.others m) ipidx).test (ctxidx ipidx) = .ok true ∧
      notified_still_set ipidx (w.others m) rest

/-- A call of the public members, made by the only thread that uses the
manager: `wakeups` are the statuses of the `wait_for` calls of an `open`. -/
inductive api_call where
  | do_open (uuid : Nat) (ipidx : cuidx_type) (shared : Bool) (wakeups : List cv_status)
  | do_close (uuid : Nat) (ipidx : cuidx_type)

/-- The CU index a call is about. -/
def api_call.ipidx : api_call → cuidx_type
  | .do_open _ ipidx _ _ => ipidx
  | .do_close _ ipidx => ipidx

/-- Running one call. -/
def api_call.run {D : Type} (dev : device D) : api_call → device_context_mgr D → result D
  | .do_open uuid ipidx shared wakeups, m =>
    device_context_mgr.open dev uuid ipidx shared m (wakeups.map alone)
  | .do_close uuid ipidx, m => device_context_mgr.close dev uuid ipidx m

/-- Running a sequence of calls one after the other; a call that throws leaves
the manager as the exception found it. -/
def run_calls {D : Type} (dev : device D) : List api_call → device_context_mgr D →
    device_context_mgr D
  | [], m => m
  | c :: cs, m => run_calls dev cs (c.run dev m).mgr

/-- A manager as its constructor leaves it, on the counting device with no context open. -/
def fresh_mgr : device_context_mgr (Nat → Int) :=
  device_context_mgr.init (fun _ => 0)

/-- CU 3 of domain 0. -/
def cu3 : cuidx_type := ⟨3, 0, 3⟩

/-- CU 5 of domain 0. -/
def cu5 : cuidx_type := ⟨5, 0, 5⟩

/-- The virtual CU whose three members come from the one 32-bit word
`0xFFFFFFFF` (low half `domain_index`, high half `domain`). -/
def virtual_cu : cuidx_type := ⟨0xFFFFFFFF, 0xFFFF, 0xFFFF⟩

/-- The CU with `domain = 0xFFFF` and `domain_index = 128`, index word `0xFFFF0080`. -/
def cu_last_slot : cuidx_type := ⟨0xFFFF0080, 0xFFFF, 0x80⟩

/-- The slot of a CU index: the key into `m_d2ctx` and the bit position. -/
def slot (ipidx : cuidx_type) : Nat × Nat :=
  (ipidx.domain, ctxidx ipidx)

/-- On the counting device and for the CU indices in `cus`: the count of a CU
is 1 when the bit of its slot is set and 0 when it is clear, and a set bit lies
inside the bitset. -/
def bits_match_counts (cus : cuidx_type → Prop) (m : device_context_mgr (Nat → Int)) : Prop :=
  ∀ a, cus a →
    (m.m_device a.index = if m.m_d2ctx a.domain (ctxidx a) then 1 else 0) ∧
    (m.m_d2ctx a.domain (ctxidx a) = true → ctxidx a < max_cus)

/-- A device whose two context calls always throw. -/
def broken_device : device (Nat → Int) where
  open_context := fun _ _ _ _ => .error "EIO"
  close_context := fun _ _ _ => .error "EIO"

/-- Modelled from the spec: the declaration of `cuidx_type`
(`core/common/cuidx_type.h`) is missing from the translated files; the
specification describes a CU index as a (domain, per-domain index) pair, so two
values with the same `domain` and the same `domain_index` have the same
`index`. -/
def same_pair_same_index (a b : cuidx_type) : Prop :=
  a.domain = b.domain → a.domain_index = b.domain_index → a.index = b.index

/-- The CU indices the slot sets are sized for: the virtual CU, or a CU whose
`domain_index` is below `max_cus - 1`. -/
def in_range (a : cuidx_type) : Prop :=
  a.index = virtual_cu_idx ∨ a.domain_index < max_cus - 1

/-- The number of wake-ups of the list that are not time-outs. -/
def notifications {D : Type} : List (wakeup D) → Nat
  | [] => 0
  | w :: rest =>
    match w.status with
    | .no_timeout => notifications rest + 1
    | .timeout => notifications rest

/-! ## The registry of `context_mgr.cpp` (lines 97-143) -/

/-- A `device_context_mgr` object as the cache refers to it: the construction
it came from (`serial`, its identity), its slot sets, and the number of
`shared_ptr` owners.  With `use_count = 0` the object is destroyed and the
`weak_ptr` of the cache is expired.  Its member `m_device` is the device
address under which it is cached. -/
structure cached_mgr where
  serial : Nat
  m_d2ctx : Nat → bitset
  use_count : Nat

/-- The static map `d2cmgr` with what it refers to: the states of the device
objects by address, the `weak_ptr` cached per device address (`none` is the
empty `weak_ptr` that `operator[]` inserts for an absent key), and the number
of managers constructed so far. -/
structure registry (D : Type) where
  devices : Nat → D
  d2cmgr : Nat → Option cached_mgr
  constructed : Nat

/-- The registry of a process in which `create` was never called. -/
def registry.init {D : Type} (devices : Nat → D) : registry D :=
  ⟨devices, fun _ => none, 0⟩

/-- The member `weak_ptr::lock()`: the object while it has an owner, else null. -/
def lock (w : Option cached_mgr) : Option cached_mgr :=
  match w with
  | some c => if c.use_count = 0 then none else some c
  | none => none

/-- Whether a live manager is cached for the device. -/
def live {D : Type} (r : registry D) (device : Nat) : Bool :=
  (lock (r.d2cmgr device)).isSome

/-- The function `get_device_context_mgr(device, create)`.  The returned
`shared_ptr` is one more owner of the object it points to. -/
def get_device_context_mgr {D : Type} (r : registry D) (device : Nat) (create : Bool) :
    registry D × Option cached_mgr :=
  match lock (r.d2cmgr device) with
  | some c =>
    (⟨r.devices,
      fun d => if d = device then some ⟨c.serial, c.m_d2ctx, c.use_count + 1⟩ else r.d2cmgr d,
      r.constructed⟩,
     some ⟨c.serial, c.m_d2ctx, c.use_count + 1⟩)
  | none =>
    if create then
      (⟨r.devices,
        fun d => if d = device then some ⟨r.constructed, fun _ _ => false, 1⟩ else r.d2cmgr d,
        r.constructed + 1⟩,
       some ⟨r.constructed, fun _ _ => false, 1⟩)
    else (r, none)

/-- The exposed function `create(device)`. -/
def create {D : Type} (r : registry D) (device : Nat) : registry D × Option cached_mgr :=
  get_device_context_mgr r device true

/-- The destructor of one `shared_ptr` to the manager `serial` of `device`. -/
def release {D : Type} (r : registry D) (device : Nat) (serial : Nat) : registry D :=
  match r.d2cmgr device with
  | some c =>
    if c.serial = serial then
      ⟨r.devices,
        fun d => if d = device then some ⟨c.serial, c.m_d2ctx, c.use_count - 1⟩ else r.d2cmgr d,
        r.constructed⟩
    else r
  | none => r

/-- The state a member call of the manager `c` of `device` leaves behind. -/
def with_mgr {D : Type} (r : registry D) (device : Nat) (c : cached_mgr)
    (m : device_context_mgr D) : registry D :=
  ⟨fun d => if d = device then m.m_device else r.devices d,
    fun d => if d = device then some ⟨c.serial, m.m_d2ctx, c.use_count⟩ else r.d2cmgr d,
    r.constructed⟩

/-- What a call of the exposed `open_context` or `close_context` leaves behind. -/
structure api_result (D : Type) where
  reg : registry D
  completion : completion
  waits : Nat
  calls : List dev_call
  notify_all : Nat

/-- The exposed function `open_context(device, uuid, cuidx, shared)`; the local
`ctxmgr` is released when the function is left. -/
def open_context {D : Type} (dev : device D) (r : registry D) (device : Nat) (uuid : Nat)
    (cuidx : cuidx_type) (shared : Bool) (ws : List (wakeup D)) : api_result D :=
  match get_device_context_mgr r device false with
  | (r1, some ctxmgr) =>
    ⟨release (with_mgr r1 device ctxmgr
        (device_context_mgr.open dev uuid cuidx shared ⟨r1.devices device, ctxmgr.m_d2ctx⟩
          ws).mgr) device ctxmgr.serial,
      (device_context_mgr.open dev uuid cuidx shared ⟨r1.devices device, ctxmgr.m_d2ctx⟩
          ws).completion,
      (device_context_mgr.open dev uuid cuidx shared ⟨r1.devices device, ctxmgr.m_d2ctx⟩
          ws).waits,
      (device_context_mgr.open dev uuid cuidx shared ⟨r1.devices device, ctxmgr.m_d2ctx⟩
          ws).calls,
      (device_context_mgr.open dev uuid cuidx shared ⟨r1.devices device, ctxmgr.m_d2ctx⟩
          ws).notify_all⟩
  | (r1, none) => ⟨r1, .threw (.runtime_error "No context manager for device"), 0, [], 0⟩

/-- The exposed function `close_context(device, uuid, cuidx)`. -/
def close_context {D : Type} (dev : device D) (r : registry D) (device : Nat) (uuid : Nat)
    (cuidx : cuidx_type) : api_result D :=
  match get_device_context_mgr r device false with
  | (r1, some ctxmgr) =>
    ⟨release (with_mgr r1 device ctxmgr
        (device_context_mgr.close dev uuid cuidx ⟨r1.devices device, ctxmgr.m_d2ctx⟩).mgr)
        device ctxmgr.serial,
      (device_context_mgr.close dev uuid cuidx ⟨r1.devices device, ctxmgr.m_d2ctx⟩).completion,
      (device_context_mgr.close dev uuid cuidx ⟨r1.devices device, ctxmgr.m_d2ctx⟩).waits,
      (device_context_mgr.close dev uuid cuidx ⟨r1.devices device, ctxmgr.m_d2ctx⟩).calls,
      (device_context_mgr.close dev uuid cuidx ⟨r1.devices device, ctxmgr.m_d2ctx⟩).notify_all⟩
  | (r1, none) => ⟨r1, .threw (.runtime_error "No context manager for device"), 0, [], 0⟩

/-- A process with counting devices on which nothing is open and no manager. -/
def fresh_registry : registry (Nat → Int) :=
  registry.init (fun _ _ => 0)

end context_mgr

namespace skd

/-! ## Data model of `sk_daemon.cpp` (the command loop of `softKernelLoop`) -/

/-- The enumeration `kernel_argument::argtype`.  Its declaration
(`core/common/pskernel_parse.h`) is not part of the translated files; the loop
only separates `global` from every other enumerator, for which `scalar` stands. -/
inductive argtype where
  | scalar
  | global
deriving DecidableEq

/-- The members of `xrt_core::pskernel::kernel_argument` that the command loop reads. -/
structure kernel_argument where
  name : String
  offset : Nat
  type : argtype
deriving DecidableEq

/-- The mapped register file `args_from_host`, a `uint32_t*`: word index to word. -/
abbrev regfile := Nat → Nat

/-- An array element assignment `a[i] = v`. -/
def store {α : Type} (a : Nat → α) (i : Nat) (v : α) : Nat → α :=
  fun j => if j = i then v else a j

/-- The read `args_from_host[w]` of one `uint32_t`. -/
def read32 (rf : regfile) (w : Nat) : Nat :=
  rf w % 2 ^ 32

/-- The read `*(uint64_t*)(&args_from_host[w])` on a little-endian target:
word `w` is the low half and word `w + 1` the high half. -/
def read64 (rf : regfile) (w : Nat) : Nat :=
  read32 rf w + 2 ^ 32 * read32 rf (w + 1)

/-- Byte `k` of the register file on a little-endian target. -/
def byte_at (rf : regfile) (k : Nat) : Nat :=
  read32 rf (k / 4) / 2 ^ (8 * (k % 4)) % 256

/-- The 64-bit little-endian value held in bytes `[k, k + 8)` of the register file. -/
def bytes64 (rf : regfile) (k : Nat) : Nat :=
  ((List.range 8).map (fun j => byte_at rf (k + j) * 256 ^ j)).sum

/-- The pointers stored in `ffi_arg_values`: `&bos[i]` or `&args_from_host[w]`. -/
inductive arg_ptr where
  | bos (i : Nat)
  | args_from_host (w : Nat)
deriving DecidableEq

/-- The byte offset inside the register file that a pointer `&args_from_host[w]` designates. -/
def arg_ptr.byte : arg_ptr → Option Nat
  | .bos _ => none
  | .args_from_host w => some (4 * w)

/-- Calls that leave the command loop, with their arguments. -/
inductive shim_call where
  | xclSKReport (cu_idx : Nat)
  | xclGetHostBO (paddr : Nat) (size : Nat)
  | xclMapBO (boHandle : Nat) (write : Bool)
  | old_kernel (args_word : Nat)
  | ffi_call (avalue : List arg_ptr)
  | munmap (addr : Nat) (length : Nat)
  | xclFreeBO (boHandle : Nat)
deriving DecidableEq

/-- The locals of `softKernelLoop` that live across iterations of `while (1)`. -/
structure loop_state where
  args_from_host : regfile
  kernel_return : Int
  boHandles : Nat → Nat
  bos : Nat → Nat
  boSize : Nat → Nat
  ffi_arg_values : Nat → arg_ptr
  bo_list : List Nat

/-- The locals when the loop is entered: `kernel_return = 0`, an empty
`bo_list`, and arrays that the function leaves uninitialised (parameters). -/
def loop_state.init (rf : regfile) (junk : Nat → Nat) (junk_ptr : Nat → arg_ptr) : loop_state :=
  ⟨rf, 0, junk, junk, junk, junk_ptr, []⟩

/-- What the surroundings answer during one iteration: the value returned by
`waitNextCmd`, what the host wrote into the register file while the worker was
blocked, the handle `xclGetHostBO` returns, the address `xclMapBO` returns, and
the kernel entry point (its return value and the register file after its own
writes). -/
structure wake where
  ret : Int
  host : regfile → regfile
  xclGetHostBO : Nat → Nat → Nat
  xclMapBO : Nat → Nat
  kernel : loop_state → Int × regfile

/-- The condition `(args.size()==2 && args[1].name.compare("ops")==0) || args.empty()`. -/
def legacy (args : List kernel_argument) : Bool :=
  (args.length == 2 &&
    (match args.get? 1 with
     | some a => a.name == "ops"
     | none => false)) || args.isEmpty

/-- The body of the mapping loop for index `i` (lines 259-272). -/
def map_arg (e : wake) (i : Nat) (a : kernel_argument) (s : loop_state) :
    loop_state × List shim_call :=
  match a.type with
  | .global =>
    let buf_addr := read64 s.args_from_host (a.offset / 4)
    let buf_size := read64 s.args_from_host (a.offset / 4 + 2)
    let h := e.xclGetHostBO buf_addr buf_size % 2 ^ 32
    let p := e.xclMapBO h
    (⟨s.args_from_host, s.kernel_return, store s.boHandles i h, store s.bos i p,
      store s.boSize i buf_size, store s.ffi_arg_values i (.bos i), s.bo_list ++ [i]⟩,
     [.xclGetHostBO buf_addr buf_size, .xclMapBO h true])
  | .scalar =>
    (⟨s.args_from_host, s.kernel_return, s.boHandles, s.bos, s.boSize,
      store s.ffi_arg_values i (.args_from_host (a.offset / 4)), s.bo_list⟩, [])

/-- The mapping loop `for (int i = 0; i < args.size(); i++)`, from index `i` on. -/
def map_args (e : wake) : Nat → List kernel_argument → loop_state → loop_state × List shim_call
  | _, [], s => (s, [])
  | i, a :: rest, s =>
    let r := map_arg e i a s
    let r2 := map_args e (i + 1) rest r.1
    (r2.1, r.2 ++ r2.2)

/-- The release loop `for (auto i : bo_list)`. -/
def unmap_all (s : loop_state) : List shim_call :=
  s.bo_list.flatMap (fun i => [.munmap (s.bos i) (s.boSize i), .xclFreeBO (s.boHandles i)])

/-- Which branch of the three identical `if`s was taken. -/
inductive path where
  | legacy
  | generic
deriving DecidableEq

/-- What one iteration of `while (1)` did. -/
inductive iteration where
  | exit
  | spurious
  | dispatched (map_path call_path unmap_path : path)
      (map_calls : List shim_call) (kernel_call : shim_call) (kernel_regs : regfile)
      (unmap_calls : List shim_call)

/-- The value of type `int32_t` that holds the kernel result `r`. -/
def to_int32 (r : Int) : Int :=
  (r + 2 ^ 31) % 2 ^ 32 - 2 ^ 31

/-- The conversion `(uint32_t)kernel_return`. -/
def to_uint32 (r : Int) : Nat :=
  (r % 2 ^ 32).toNat

/-- The locals when `waitNextCmd` returns: the register file holds what the
host wrote while the worker was blocked. -/
def woken (e : wake) (s : loop_state) : loop_state :=
  ⟨e.host s.args_from_host, s.kernel_return, s.boHandles, s.bos, s.boSize,
    s.ffi_arg_values, s.bo_list⟩

/-- The locals at the kernel call: after the mapping loop on the generic path,
as `waitNextCmd` left them on the legacy path (lines 254-275). -/
def at_call (args : List kernel_argument) (e : wake) (s : loop_state) : loop_state :=
  if legacy args then woken e s else (map_args e 0 args (woken e s)).1

/-- One iteration of `while (1)` (lines 237-295): the locals it leaves and what it did. -/
def iterate (args : List kernel_argument) (e : wake) (s : loop_state) :
    loop_state × iteration :=
  if e.ret ≠ 0 then (woken e s, .exit)
  else if read32 (woken e s).args_from_host 0 % 2 = 0 then (woken e s, .spurious)
  else
    let m : path × List shim_call :=
      if legacy args then (.legacy, []) else (.generic, (map_args e 0 args (woken e s)).2)
    let s2 := at_call args e s
    let k := e.kernel s2
    let c : path × shim_call :=
      if legacy args then (.legacy, .old_kernel 1) else
        (.generic, .ffi_call ((List.range args.length).map s2.ffi_arg_values))
    let kernel_return := to_int32 k.1
    let s3 : loop_state := ⟨store k.2 1 (to_uint32 kernel_return), kernel_return, s2.boHandles,
      s2.bos, s2.boSize, s2.ffi_arg_values, s2.bo_list⟩
    let u : path × List shim_call :=
      if legacy args then (.legacy, []) else (.generic, unmap_all s3)
    (s3, .dispatched m.1 c.1 u.1 m.2 c.2 k.2 u.2)

/-- The branches taken by the three `if`s of a dispatched command. -/
def iteration.paths : iteration → Option (path × path × path)
  | .dispatched m c u _ _ _ _ => some (m, c, u)
  | _ => none

/-- The calls of the mapping phase of a dispatched command. -/
def iteration.map_calls : iteration → List shim_call
  | .dispatched _ _ _ mc _ _ _ => mc
  | _ => []

/-- The kernel call of a dispatched command. -/
def iteration.kernel_call : iteration → Option shim_call
  | .dispatched _ _ _ _ kc _ _ => some kc
  | _ => none

/-- The calls of the release phase of a dispatched command. -/
def iteration.unmap_calls : iteration → List shim_call
  | .dispatched _ _ _ _ _ _ uc => uc
  | _ => []

/-- The loop `while (1)` over the wake-ups handed to the model; it stops at the
first non-zero return of `waitNextCmd`. -/
def softKernelLoop (args : List kernel_argument) :
    List wake → loop_state → loop_state × List iteration
  | [], s => (s, [])
  | e :: rest, s =>
    let r := iterate args e s
    match r.2 with
    | .exit => (r.1, [.exit])
    | it =>
      let r2 := softKernelLoop args rest r.1
      (r2.1, it :: r2.2)

/-- The table of the end-to-end example: a scalar at byte offset 8 and a
buffer at byte offset 16. -/
def example_args : List kernel_argument :=
  [⟨"in", 8, .scalar⟩, ⟨"buf", 16, .global⟩]

/-- A register file with the start bit set and the buffer entry
(address `0x1000`, size 64) at byte offset 16. -/
def example_regs : regfile :=
  fun w => if w = 0 then 1 else if w = 2 then 42 else if w = 4 then 0x1000 else
    if w = 6 then 64 else 0

/-- A wake-up with a pending command: the host wrote `example_regs`, the shim
answers handle `h` and address `p`, and the kernel returns 9 without writing
to the register file. -/
def example_wake (h p : Nat) : wake :=
  ⟨0, fun _ => example_regs, fun _ _ => h, fun _ => p, fun s => (9, s.args_from_host)⟩

/-- The locals on entry of the loop, the uninitialised arrays holding zeros. -/
def example_state : loop_state :=
  loop_state.init (fun _ => 0) (fun _ => 0) (fun _ => .args_from_host 0)

/-- A wake-up with a zero wait-return code during which the host wrote
nothing: on `example_state` the start bit is clear. -/
def idle_wake : wake :=
  ⟨0, fun rf => rf, fun _ _ => 5, fun _ => 0x7000, fun s => (9, s.args_from_host)⟩

/-- The selection rule in the words of the specification: the table is empty,
or it consists of the return slot followed by exactly one argument, and that
argument is named `"ops"`. -/
def spec_legacy (args : List kernel_argument) : Prop :=
  args = [] ∨ ∃ r a, args = [r, a] ∧ a.name = "ops"

end skd

/-! # Theorems -/

namespace context_mgr

theorem test_eq_ok_iff (b : bitset) (pos : Nat) (v : Bool) :
    b.test pos = .ok v ↔ pos < max_cus ∧ b pos = v := by
  unfold bitset.test
  by_cases h : pos < max_cus <;> simp [h]

theorem open_of_clear {D : Type} (dev : device D) (m : device_context_mgr D) (uuid : Nat)
    (ipidx : cuidx_type) (shared : Bool) (ws : List (wakeup D))
    (hclear : (get_ctx m ipidx).test (ctxidx ipidx) = .ok false) :
    device_context_mgr.open dev uuid ipidx shared m ws = open_and_set dev uuid ipidx shared m := by
  cases ws <;> simp [device_context_mgr.open, hclear]

/-- C2: when the slot bit of the CU index is clear, `open` makes no `wait_for`
call and exactly one device call `open_context(uuid, ipidx.index, shared)`; when
that device call returns, `open` returns, the slot bit is set and every other
bit of every domain is as before. -/
theorem open_on_clear_bit {D : Type} (dev : device D) (m : device_context_mgr D) (uuid : Nat)
    (ipidx : cuidx_type) (shared : Bool) (ws : List (wakeup D))
    (hclear : (get_ctx m ipidx).test (ctxidx ipidx) = .ok false) :
    (device_context_mgr.open dev uuid ipidx shared m ws).waits = 0 ∧
    (device_context_mgr.open dev uuid ipidx shared m ws).calls
      = [.open_context uuid ipidx.index shared] ∧
    ∀ d, dev.open_context m.m_device uuid ipidx.index shared = .ok d →
      (device_context_mgr.open dev uuid ipidx shared m ws).completion = .returned ∧
      (get_ctx (device_context_mgr.open dev uuid ipidx shared m ws).mgr ipidx).test (ctxidx ipidx)
        = .ok true ∧
      ∀ dom pos, (dom ≠ ipidx.domain ∨ pos ≠ ctxidx ipidx) →
        (device_context_mgr.open dev uuid ipidx shared m ws).mgr.m_d2ctx dom pos
          = m.m_d2ctx dom pos := by
  have hlt : ctxidx ipidx < max_cus := ((test_eq_ok_iff _ _ _).1 hclear).1
  rw [open_of_clear dev m uuid ipidx shared ws hclear]
  unfold open_and_set
  cases hd : dev.open_context m.m_device uuid ipidx.index shared with
  | error what => simp
  | ok d =>
    simp only [bitset.set, hlt, if_true]
    refine ⟨trivial, trivial, ?_⟩
    intro d' _
    refine ⟨trivial, ?_, ?_⟩
    · simp [test_eq_ok_iff, hlt, get_ctx, put_ctx]
    · intro dom pos h
      simp only [put_ctx, get_ctx]
      by_cases h1 : dom = ipidx.domain
      · have h2 : pos ≠ ctxidx ipidx := by
          rcases h with h | h
          · exact absurd h1 h
          · exact h
        simp [h1, h2]
      · simp [h1]

theorem open_returned_of_clear {D : Type} (dev : device D) (m : device_context_mgr D)
    (uuid : Nat) (ipidx : cuidx_type) (shared : Bool) (ws : List (wakeup D))
    (hclear : (get_ctx m ipidx).test (ctxidx ipidx) = .ok false)
    (hret : (device_context_mgr.open dev uuid ipidx shared m ws).completion = .returned) :
    ∃ d, dev.open_context m.m_device uuid ipidx.index shared = .ok d ∧
      (device_context_mgr.open dev uuid ipidx shared m ws).mgr
        = put_ctx m d ipidx (fun i => if i = ctxidx ipidx then true else get_ctx m ipidx i) := by
  have hlt : ctxidx ipidx < max_cus := ((test_eq_ok_iff _ _ _).1 hclear).1
  rw [open_of_clear dev m uuid ipidx shared ws hclear] at hret ⊢
  unfold open_and_set at hret ⊢
  cases hd : dev.open_context m.m_device uuid ipidx.index shared with
  | error what => simp [hd] at hret
  | ok d => exact ⟨d, rfl, by simp [bitset.set, hlt]⟩

theorem close_of_set {D : Type} (dev : device D) (m : device_context_mgr D) (uuid : Nat)
    (ipidx : cuidx_type) (d : D)
    (hset : (get_ctx m ipidx).test (ctxidx ipidx) = .ok true)
    (hd : dev.close_context m.m_device uuid ipidx.index = .ok d) :
    device_context_mgr.close dev uuid ipidx m
      = ⟨.returned, put_ctx m d ipidx (fun i => if i = ctxidx ipidx then false else get_ctx m ipidx i),
          0, [.close_context uuid ipidx.index], 1⟩ := by
  have hlt : ctxidx ipidx < max_cus := ((test_eq_ok_iff _ _ _).1 hset).1
  simp [device_context_mgr.close, hset, hd, bitset.reset, hlt]

theorem close_returned {D : Type} (dev : device D) (m : device_context_mgr D) (uuid : Nat)
    (ipidx : cuidx_type)
    (hret : (device_context_mgr.close dev uuid ipidx m).completion = .returned) :
    (get_ctx m ipidx).test (ctxidx ipidx) = .ok true ∧
      ∃ d, dev.close_context m.m_device uuid ipidx.index = .ok d := by
  cases ht : (get_ctx m ipidx).test (ctxidx ipidx) with
  | error e => simp [device_context_mgr.close, ht] at hret
  | ok b =>
    cases b with
    | false => simp [device_context_mgr.close, ht] at hret
    | true =>
      cases hd : dev.close_context m.m_device uuid ipidx.index with
      | error what => simp [device_context_mgr.close, ht, hd] at hret
      | ok d => exact ⟨rfl, d, rfl⟩

theorem close_of_clear {D : Type} (dev : device D) (m : device_context_mgr D) (uuid : Nat)
    (ipidx : cuidx_type)
    (hclear : (get_ctx m ipidx).test (ctxidx ipidx) = .ok false) :
    device_context_mgr.close dev uuid ipidx m
      = ⟨.threw (.runtime_error ("ctx " ++ toString ipidx.index ++ " not open")), m, 0, [], 0⟩ := by
  simp [device_context_mgr.close, hclear]

/-- C2 at a concrete input: opening CU 3 on a fresh manager. -/
theorem open_on_clear_bit_witness :
    (get_ctx fresh_mgr cu3).test (ctxidx cu3) = .ok false ∧
    (device_context_mgr.open context_counter 7 cu3 true fresh_mgr []).waits = 0 ∧
    (device_context_mgr.open context_counter 7 cu3 true fresh_mgr []).calls
      = [.open_context 7 3 true] :=
  ⟨rfl, (open_on_clear_bit context_counter fresh_mgr 7 cu3 true [] rfl).1,
    (open_on_clear_bit context_counter fresh_mgr 7 cu3 true [] rfl).2.1⟩

/-- C3: when the slot bit of the CU index is set, `close` makes exactly one
device call `close_context(uuid, ipidx.index)`; when that call returns, `close`
returns after one `notify_all`, the slot bit is clear and every other bit of
every domain is as before.  Consequently, if the manager came from a returning
`open` of the same CU index on a manager whose bit was clear, `close` gives
back the slot sets that held before that `open`. -/
theorem close_on_set_bit {D : Type} (dev : device D) (m : device_context_mgr D) (uuid : Nat)
    (ipidx : cuidx_type)
    (hset : (get_ctx m ipidx).test (ctxidx ipidx) = .ok true) :
    (device_context_mgr.close dev uuid ipidx m).calls = [.close_context uuid ipidx.index] ∧
    (device_context_mgr.close dev uuid ipidx m).waits = 0 ∧
    ∀ d, dev.close_context m.m_device uuid ipidx.index = .ok d →
      (device_context_mgr.close dev uuid ipidx m).completion = .returned ∧
      (device_context_mgr.close dev uuid ipidx m).notify_all = 1 ∧
      (get_ctx (device_context_mgr.close dev uuid ipidx m).mgr ipidx).test (ctxidx ipidx)
        = .ok false ∧
      (∀ dom pos, (dom ≠ ipidx.domain ∨ pos ≠ ctxidx ipidx) →
        (device_context_mgr.close dev uuid ipidx m).mgr.m_d2ctx dom pos = m.m_d2ctx dom pos) ∧
      ∀ (m0 : device_context_mgr D) (uuid0 : Nat) (shared : Bool) (ws : List (wakeup D)),
        (get_ctx m0 ipidx).test (ctxidx ipidx) = .ok false →
        (device_context_mgr.open dev uuid0 ipidx shared m0 ws).completion = .returned →
        m = (device_context_mgr.open dev uuid0 ipidx shared m0 ws).mgr →
        (device_context_mgr.close dev uuid ipidx m).mgr.m_d2ctx = m0.m_d2ctx := by
  have hlt : ctxidx ipidx < max_cus := ((test_eq_ok_iff _ _ _).1 hset).1
  refine ⟨?_, ?_, ?_⟩
  · unfold device_context_mgr.close
    simp only [hset]
    cases hd : dev.close_context m.m_device uuid ipidx.index with
    | error what => rfl
    | ok d => simp [bitset.reset, hlt]
  · unfold device_context_mgr.close
    simp only [hset]
    cases hd : dev.close_context m.m_device uuid ipidx.index with
    | error what => rfl
    | ok d => simp [bitset.reset, hlt]
  · intro d hd
    rw [close_of_set dev m uuid ipidx d hset hd]
    refine ⟨rfl, rfl, ?_, ?_, ?_⟩
    · simp [test_eq_ok_iff, hlt, get_ctx, put_ctx]
    · intro dom pos h
      simp only [put_ctx, get_ctx]
      by_cases h1 : dom = ipidx.domain
      · have h2 : pos ≠ ctxidx ipidx := by
          rcases h with h | h
          · exact absurd h1 h
          · exact h
        simp [h1, h2]
      · simp [h1]
    · intro m0 uuid0 shared ws hclear hret hm
      obtain ⟨d1, _, hmgr⟩ := open_returned_of_clear dev m0 uuid0 ipidx shared ws hclear hret
      have hb : m0.m_d2ctx ipidx.domain (ctxidx ipidx) = false :=
        ((test_eq_ok_iff _ _ _).1 hclear).2
      rw [hm, hmgr]
      funext dom pos
      simp only [put_ctx, get_ctx]
      by_cases h1 : dom = ipidx.domain
      · by_cases h2 : pos = ctxidx ipidx
        · simp [h1, h2, hb]
        · simp [h1, h2]
      · simp [h1]

/-- C3 at a concrete input: closing CU 3 right after opening it on a fresh manager. -/
theorem close_on_set_bit_witness :
    (get_ctx (device_context_mgr.open context_counter 7 cu3 true fresh_mgr []).mgr cu3).test
        (ctxidx cu3) = .ok true ∧
    (device_context_mgr.close context_counter 7 cu3
        (device_context_mgr.open context_counter 7 cu3 true fresh_mgr []).mgr).calls
      = [.close_context 7 3] :=
  ⟨rfl, (close_on_set_bit context_counter
    (device_context_mgr.open context_counter 7 cu3 true fresh_mgr []).mgr 7 cu3 rfl).1⟩

/-- C4: when the slot bit of the CU index is clear, `close` throws
`runtime_error("ctx <index> not open")`, makes no device call and no
`notify_all`, and leaves the manager as it was; hence a `close` that directly
follows a returning `close` of the same CU index throws that error. -/
theorem close_on_clear_bit {D : Type} (dev : device D) (m : device_context_mgr D) (uuid : Nat)
    (ipidx : cuidx_type)
    (hclear : (get_ctx m ipidx).test (ctxidx ipidx) = .ok false) :
    (device_context_mgr.close dev uuid ipidx m).completion
      = .threw (.runtime_error ("ctx " ++ toString ipidx.index ++ " not open")) ∧
    (device_context_mgr.close dev uuid ipidx m).calls = [] ∧
    (device_context_mgr.close dev uuid ipidx m).notify_all = 0 ∧
    (device_context_mgr.close dev uuid ipidx m).mgr = m ∧
    ∀ (m0 : device_context_mgr D) (uuid0 : Nat),
      (device_context_mgr.close dev uuid0 ipidx m0).completion = .returned →
      (device_context_mgr.close dev uuid ipidx
          (device_context_mgr.close dev uuid0 ipidx m0).mgr).completion
        = .threw (.runtime_error ("ctx " ++ toString ipidx.index ++ " not open")) := by
  rw [close_of_clear dev m uuid ipidx hclear]
  refine ⟨rfl, rfl, rfl, rfl, ?_⟩
  intro m0 uuid0 hret
  obtain ⟨hset, d, hd⟩ := close_returned dev m0 uuid0 ipidx hret
  have hlt : ctxidx ipidx < max_cus := ((test_eq_ok_iff _ _ _).1 hset).1
  rw [close_of_set dev m0 uuid0 ipidx d hset hd]
  rw [close_of_clear]
  simp [test_eq_ok_iff, hlt, get_ctx, put_ctx]

/-- C4 at a concrete input: closing CU 3 on a fresh manager. -/
theorem close_on_clear_bit_witness :
    (get_ctx fresh_mgr cu3).test (ctxidx cu3) = .ok false ∧
    (device_context_mgr.close context_counter 7 cu3 fresh_mgr).completion
      = .threw (.runtime_error "ctx 3 not open") :=
  ⟨rfl, (close_on_clear_bit context_counter fresh_mgr 7 cu3 rfl).1⟩

theorem open_notified_still_set {D : Type} (dev : device D) (uuid : Nat) (ipidx : cuidx_type)
    (shared : Bool) (pre : List (wakeup D)) :
    ∀ (m : device_context_mgr D), (get_ctx m ipidx).test (ctxidx ipidx) = .ok true →
      notified_still_set ipidx m pre →
      device_context_mgr.open dev uuid ipidx shared m pre
          = ⟨.waiting, after_wakeups m pre, pre.length + 1, [], 0⟩ ∧
      ∀ (t : wakeup D) (post : List (wakeup D)), t.status = .timeout →
        device_context_mgr.open dev uuid ipidx shared m (pre ++ t :: post)
          = ⟨.threw (.runtime_error "aquiring cu context timed out"),
              after_wakeups m (pre ++ [t]), pre.length + 1, [], 0⟩ := by
  induction pre with
  | nil =>
    intro m hset _
    refine ⟨by simp [device_context_mgr.open, hset, after_wakeups], ?_⟩
    intro t post ht
    simp [device_context_mgr.open, hset, ht, after_wakeups]
  | cons w pre ih =>
    intro m hset hpre
    obtain ⟨hw, hset2, hrest⟩ := hpre
    obtain ⟨ih1, ih2⟩ := ih (w.others m) hset2 hrest
    refine ⟨?_, ?_⟩
    · simp [device_context_mgr.open, hset, hw, ih1, result.add_wait, after_wakeups]
    · intro t post ht
      simp [device_context_mgr.open, hset, hw, ih2 t post ht, result.add_wait, after_wakeups]

/-- C5: `open` on a CU index whose slot bit is set, with wake-ups `pre`
that are all notifications after which the bit is still set, is in its
`wait_for` call number `pre.length + 1` (it waits again after each of them);
and when the next wake-up `t` is a time-out, `open` throws
`runtime_error("aquiring cu context timed out")` (the spelling of the source)
after `pre.length + 1` waits, with no device call and no `notify_all`, and the
manager is exactly as the other threads left it: the call changed no bit. -/
theorem open_times_out {D : Type} (dev : device D) (uuid : Nat) (ipidx : cuidx_type)
    (shared : Bool) (m : device_context_mgr D) (pre : List (wakeup D)) (t : wakeup D)
    (post : List (wakeup D))
    (hset : (get_ctx m ipidx).test (ctxidx ipidx) = .ok true)
    (hpre : notified_still_set ipidx m pre)
    (ht : t.status = .timeout) :
    device_context_mgr.open dev uuid ipidx shared m pre
        = ⟨.waiting, after_wakeups m pre, pre.length + 1, [], 0⟩ ∧
    device_context_mgr.open dev uuid ipidx shared m (pre ++ t :: post)
        = ⟨.threw (.runtime_error "aquiring cu context timed out"),
            after_wakeups m (pre ++ [t]), pre.length + 1, [], 0⟩ :=
  ⟨(open_notified_still_set dev uuid ipidx shared pre m hset hpre).1,
    (open_notified_still_set dev uuid ipidx shared pre m hset hpre).2 t post ht⟩

/-- C5 at a concrete input: CU 3 is held, one notification leaves the bit
set, the second wait times out. -/
theorem open_times_out_witness :
    (get_ctx (device_context_mgr.open context_counter 7 cu3 true fresh_mgr []).mgr cu3).test
        (ctxidx cu3) = .ok true ∧
    (device_context_mgr.open context_counter 7 cu3 true
        (device_context_mgr.open context_counter 7 cu3 true fresh_mgr []).mgr
        ([alone .no_timeout] ++ alone .timeout :: [])).completion
      = .threw (.runtime_error "aquiring cu context timed out") ∧
    (device_context_mgr.open context_counter 7 cu3 true
        (device_context_mgr.open context_counter 7 cu3 true fresh_mgr []).mgr
        ([alone .no_timeout] ++ alone .timeout :: [])).waits = 2 :=
  ⟨rfl,
    congrArg result.completion (open_times_out context_counter 7 cu3 true
      (device_context_mgr.open context_counter 7 cu3 true fresh_mgr []).mgr
      [alone .no_timeout] (alone .timeout) [] rfl ⟨rfl, rfl, trivial⟩ rfl).2,
    congrArg result.waits (open_times_out context_counter 7 cu3 true
      (device_context_mgr.open context_counter 7 cu3 true fresh_mgr []).mgr
      [alone .no_timeout] (alone .timeout) [] rfl ⟨rfl, rfl, trivial⟩ rfl).2⟩

/-- C10: evaluation of `open` at the virtual CU index `0xFFFFFFFF`, whose
`domain` member is `0xFFFF`: `ctxidx` gives bit 128 (`max_cus - 1`), `get_ctx`
selects the slot set of domain `0xFFFF`, and `open` sets bit 128 there while
bit 128 of the slot set of domain 0 stays clear. -/
theorem virtual_cu_opens_in_its_domain_field :
    virtual_cu.index = virtual_cu_idx ∧
    ctxidx virtual_cu = max_cus - 1 ∧ max_cus - 1 = 128 ∧
    (device_context_mgr.open context_counter 7 virtual_cu false fresh_mgr []).completion
      = .returned ∧
    (device_context_mgr.open context_counter 7 virtual_cu false fresh_mgr []).mgr.m_d2ctx
      0xFFFF 128 = true ∧
    (device_context_mgr.open context_counter 7 virtual_cu false fresh_mgr []).mgr.m_d2ctx
      0 128 = false := by
  refine ⟨rfl, rfl, rfl, rfl, rfl, rfl⟩

theorem open_alone_of_not_clear {D : Type} (dev : device D) (uuid : Nat) (ipidx : cuidx_type)
    (shared : Bool) (m : device_context_mgr D)
    (hnot : (get_ctx m ipidx).test (ctxidx ipidx) ≠ .ok false) (sts : List cv_status) :
    (device_context_mgr.open dev uuid ipidx shared m (sts.map alone)).mgr = m ∧
    (device_context_mgr.open dev uuid ipidx shared m (sts.map alone)).completion ≠ .returned := by
  induction sts with
  | nil =>
    cases ht : (get_ctx m ipidx).test (ctxidx ipidx) with
    | error e => simp [device_context_mgr.open, ht]
    | ok b =>
      cases b with
      | false => exact absurd ht hnot
      | true => simp [device_context_mgr.open, ht]
  | cons st sts ih =>
    cases ht : (get_ctx m ipidx).test (ctxidx ipidx) with
    | error e => simp [device_context_mgr.open, ht]
    | ok b =>
      cases b with
      | false => exact absurd ht hnot
      | true =>
        cases st with
        | timeout => simp [device_context_mgr.open, ht, alone]
        | no_timeout =>
          have e : device_context_mgr.open dev uuid ipidx shared m
              ((cv_status.no_timeout :: sts).map alone)
              = (device_context_mgr.open dev uuid ipidx shared m (sts.map alone)).add_wait := by
            simp [device_context_mgr.open, ht, alone]
          rw [e]
          exact ih

theorem open_counter_of_clear (uuid : Nat) (ipidx : cuidx_type) (shared : Bool)
    (m : device_context_mgr (Nat → Int)) (ws : List (wakeup (Nat → Int)))
    (hclear : (get_ctx m ipidx).test (ctxidx ipidx) = .ok false) :
    (device_context_mgr.open context_counter uuid ipidx shared m ws).mgr
      = put_ctx m (fun i => if i = ipidx.index then m.m_device i + 1 else m.m_device i) ipidx
          (fun i => if i = ctxidx ipidx then true else get_ctx m ipidx i) := by
  have hlt : ctxidx ipidx < max_cus := ((test_eq_ok_iff _ _ _).1 hclear).1
  rw [open_of_clear context_counter m uuid ipidx shared ws hclear]
  simp [open_and_set, context_counter, bitset.set, hlt]

theorem close_mgr_of_not_set {D : Type} (dev : device D) (uuid : Nat) (ipidx : cuidx_type)
    (m : device_context_mgr D)
    (hnot : (get_ctx m ipidx).test (ctxidx ipidx) ≠ .ok true) :
    (device_context_mgr.close dev uuid ipidx m).mgr = m := by
  cases ht : (get_ctx m ipidx).test (ctxidx ipidx) with
  | error e => simp [device_context_mgr.close, ht]
  | ok b =>
    cases b with
    | false => simp [device_context_mgr.close, ht]
    | true => exact absurd ht hnot

theorem bits_match_counts_step (cus : cuidx_type → Prop)
    (hinj : ∀ a b, cus a → cus b → (slot a = slot b ↔ a.index = b.index))
    (c : api_call) (hc : cus c.ipidx) (m : device_context_mgr (Nat → Int))
    (hm : bits_match_counts cus m) :
    bits_match_counts cus (c.run context_counter m).mgr := by
  cases c with
  | do_open uuid ipidx shared sts =>
    simp only [api_call.ipidx] at hc
    simp only [api_call.run]
    by_cases ht : (get_ctx m ipidx).test (ctxidx ipidx) = .ok false
    · rw [open_counter_of_clear uuid ipidx shared m _ ht]
      obtain ⟨hlt, hbit⟩ := (test_eq_ok_iff _ _ _).1 ht
      simp only [get_ctx] at hbit
      have hip := (hm ipidx hc).1
      rw [hbit] at hip
      intro a ha
      by_cases hs : slot a = slot ipidx
      · have hidx : a.index = ipidx.index := (hinj a ipidx ha hc).1 hs
        simp only [slot, Prod.mk.injEq] at hs
        simp [put_ctx, get_ctx, hs.1, hs.2, hidx, hip, hlt]
      · have hidx : a.index ≠ ipidx.index := fun h => hs ((hinj a ipidx ha hc).2 h)
        simp only [slot, Prod.mk.injEq, not_and] at hs
        by_cases hd : a.domain = ipidx.domain
        · have hp := hs hd
          have := hm a ha
          simp only [hd] at this
          simp only [put_ctx, get_ctx, hd, hp, hidx, if_true, if_false]
          exact this
        · have := hm a ha
          simp only [put_ctx, get_ctx, hd, hidx, if_false]
          exact this
    · rw [(open_alone_of_not_clear context_counter uuid ipidx shared m ht sts).1]
      exact hm
  | do_close uuid ipidx =>
    simp only [api_call.ipidx] at hc
    simp only [api_call.run]
    by_cases ht : (get_ctx m ipidx).test (ctxidx ipidx) = .ok true
    · rw [close_of_set context_counter m uuid ipidx
        (fun i => if i = ipidx.index then m.m_device i - 1 else m.m_device i) ht rfl]
      obtain ⟨hlt, hbit⟩ := (test_eq_ok_iff _ _ _).1 ht
      simp only [get_ctx] at hbit
      have hip := (hm ipidx hc).1
      rw [hbit] at hip
      intro a ha
      by_cases hs : slot a = slot ipidx
      · have hidx : a.index = ipidx.index := (hinj a ipidx ha hc).1 hs
        simp only [slot, Prod.mk.injEq] at hs
        simp [put_ctx, get_ctx, hs.1, hs.2, hidx, hip]
      · have hidx : a.index ≠ ipidx.index := fun h => hs ((hinj a ipidx ha hc).2 h)
        simp only [slot, Prod.mk.injEq, not_and] at hs
        by_cases hd : a.domain = ipidx.domain
        · have hp := hs hd
          have := hm a ha
          simp only [hd] at this
          simp only [put_ctx, get_ctx, hd, hp, hidx, if_true, if_false]
          exact this
        · have := hm a ha
          simp only [put_ctx, get_ctx, hd, hidx, if_false]
          exact this
    · rw [close_mgr_of_not_set context_counter uuid ipidx m ht]
      exact hm

theorem bits_match_counts_run (cus : cuidx_type → Prop)
    (hinj : ∀ a b, cus a → cus b → (slot a = slot b ↔ a.index = b.index))
    (calls : List api_call) :
    ∀ (m : device_context_mgr (Nat → Int)), (∀ c ∈ calls, cus c.ipidx) →
      bits_match_counts cus m → bits_match_counts cus (run_calls context_counter calls m) := by
  induction calls with
  | nil => intro m _ hm; exact hm
  | cons c cs ih =>
    intro m hcs hm
    simp only [run_calls]
    apply ih
    · intro c' hc'
      exact hcs c' (List.mem_cons_of_mem _ hc')
    · exact bits_match_counts_step cus hinj c (hcs c (List.mem_cons_self _ _)) m hm

theorem bits_match_counts_fresh (cus : cuidx_type → Prop) : bits_match_counts cus fresh_mgr := by
  intro a _
  simp [fresh_mgr, device_context_mgr.init]

/-- C1 as amended.  On the counting device, for every set `cus` of CU indices
that correspond one-to-one to slots (two of them have the same slot exactly
when they have the same index) and every sequence of `open` and `close` calls
on such indices starting from a fresh manager: after each call (after each
prefix `calls.take n`) the bit of the slot of a CU index in `cus` is set if and
only if exactly one hardware context is open for that index.  Moreover, for
every device and manager, an `open` that returns found the bit clear and leaves
it set, and a `close` that returns found it set and leaves it clear. -/
theorem bit_set_iff_one_context (cus : cuidx_type → Prop)
    (hinj : ∀ a b, cus a → cus b → (slot a = slot b ↔ a.index = b.index))
    (calls : List api_call) (hcalls : ∀ c ∈ calls, cus c.ipidx)
    (a : cuidx_type) (ha : cus a) :
    (∀ n, ((get_ctx (run_calls context_counter (calls.take n) fresh_mgr) a).test (ctxidx a)
          = .ok true ↔
        (run_calls context_counter (calls.take n) fresh_mgr).m_device a.index = 1)) ∧
    (∀ (D : Type) (dev : device D) (m : device_context_mgr D) (uuid : Nat) (ipidx : cuidx_type)
        (shared : Bool) (sts : List cv_status),
      (api_call.run dev (.do_open uuid ipidx shared sts) m).completion = .returned →
        (get_ctx m ipidx).test (ctxidx ipidx) = .ok false ∧
        (get_ctx (api_call.run dev (.do_open uuid ipidx shared sts) m).mgr ipidx).test
          (ctxidx ipidx) = .ok true) ∧
    (∀ (D : Type) (dev : device D) (m : device_context_mgr D) (uuid : Nat) (ipidx : cuidx_type),
      (api_call.run dev (.do_close uuid ipidx) m).completion = .returned →
        (get_ctx m ipidx).test (ctxidx ipidx) = .ok true ∧
        (get_ctx (api_call.run dev (.do_close uuid ipidx) m).mgr ipidx).test
          (ctxidx ipidx) = .ok false) := by
  refine ⟨?_, ?_, ?_⟩
  · intro n
    have hrun := bits_match_counts_run cus hinj (calls.take n) fresh_mgr
      (fun c hc => hcalls c (List.mem_of_mem_take hc)) (bits_match_counts_fresh cus) a ha
    obtain ⟨hcount, hin⟩ := hrun
    rw [test_eq_ok_iff]
    simp only [get_ctx]
    constructor
    · intro h
      rw [hcount, h.2]
      rfl
    · intro h
      cases hb : (run_calls context_counter (calls.take n) fresh_mgr).m_d2ctx a.domain (ctxidx a) with
      | false =>
        rw [hb] at hcount
        rw [h] at hcount
        simp at hcount
      | true => exact ⟨hin hb, rfl⟩
  · intro D dev m uuid ipidx shared sts hret
    simp only [api_call.run] at hret ⊢
    by_cases ht : (get_ctx m ipidx).test (ctxidx ipidx) = .ok false
    · obtain ⟨d, _, hmgr⟩ := open_returned_of_clear dev m uuid ipidx shared _ ht hret
      have hlt : ctxidx ipidx < max_cus := ((test_eq_ok_iff _ _ _).1 ht).1
      refine ⟨ht, ?_⟩
      rw [hmgr]
      simp [test_eq_ok_iff, hlt, get_ctx, put_ctx]
    · exact absurd hret (open_alone_of_not_clear dev uuid ipidx shared m ht sts).2
  · intro D dev m uuid ipidx hret
    simp only [api_call.run] at hret ⊢
    obtain ⟨hset, d, hd⟩ := close_returned dev m uuid ipidx hret
    have hlt : ctxidx ipidx < max_cus := ((test_eq_ok_iff _ _ _).1 hset).1
    refine ⟨hset, ?_⟩
    rw [close_of_set dev m uuid ipidx d hset hd]
    simp [test_eq_ok_iff, hlt, get_ctx, put_ctx]

/-- C1 as amended, at a concrete input: CU 3 and CU 5 of domain 0; open 3,
open 5, close 3; observed CU 5. -/
theorem bit_set_iff_one_context_witness :
    ((get_ctx (run_calls context_counter
          ([api_call.do_open 7 cu3 true [], .do_open 7 cu5 false [], .do_close 7 cu3].take 3)
          fresh_mgr) cu5).test (ctxidx cu5) = .ok true ↔
      (run_calls context_counter
          ([api_call.do_open 7 cu3 true [], .do_open 7 cu5 false [], .do_close 7 cu3].take 3)
          fresh_mgr).m_device cu5.index = 1) :=
  (bit_set_iff_one_context (fun a => a = cu3 ∨ a = cu5)
    (by rintro a b (rfl | rfl) (rfl | rfl) <;> decide)
    [.do_open 7 cu3 true [], .do_open 7 cu5 false [], .do_close 7 cu3]
    (by
      intro c hc
      simp only [List.mem_cons, List.mem_singleton, List.not_mem_nil, or_false] at hc
      rcases hc with rfl | rfl | rfl <;> simp [api_call.ipidx])
    cu5 (Or.inr rfl)).1 3

/-- C1 as stated fails when two CU indices share a slot: after the single call
`open` of the CU with `domain = 0xFFFF`, `domain_index = 128`, the bit of the
slot of the virtual CU (`domain = 0xFFFF`, bit 128) is set although no hardware
context is open for the virtual CU. -/
theorem shared_slot_breaks_bit_set_iff_one_context :
    (get_ctx (run_calls context_counter [.do_open 7 cu_last_slot false []] fresh_mgr)
        virtual_cu).test (ctxidx virtual_cu) = .ok true ∧
    (run_calls context_counter [.do_open 7 cu_last_slot false []] fresh_mgr).m_device
        virtual_cu.index = 0 ∧
    ¬ ((get_ctx (run_calls context_counter [.do_open 7 cu_last_slot false []] fresh_mgr)
          virtual_cu).test (ctxidx virtual_cu) = .ok true ↔
        (run_calls context_counter [.do_open 7 cu_last_slot false []] fresh_mgr).m_device
          virtual_cu.index = 1) := by
  have h0 : (run_calls context_counter [.do_open 7 cu_last_slot false []] fresh_mgr).m_device
      virtual_cu.index = 0 := rfl
  refine ⟨rfl, h0, ?_⟩
  intro h
  have h1 := h.1 rfl
  rw [h0] at h1
  exact absurd h1 (by decide)

end context_mgr

namespace skd

/-- C6: evaluation of the command loop on two commands of the table
(scalar at 8, buffer at 16).  Each command maps exactly one buffer (handle 5 at
`0x7000` for the first, handle 6 at `0x8000` for the second).  After the first
kernel call the loop issues one `munmap` and one `xclFreeBO`; after the second
it issues two `munmap` and two `xclFreeBO` for the one buffer of that command,
because `bo_list` still holds the entry of the first command. -/
theorem second_command_releases_twice :
    ((softKernelLoop example_args [example_wake 5 0x7000, example_wake 6 0x8000]
        example_state).2.map iteration.map_calls
      = [[.xclGetHostBO 0x1000 64, .xclMapBO 5 true],
         [.xclGetHostBO 0x1000 64, .xclMapBO 6 true]]) ∧
    ((softKernelLoop example_args [example_wake 5 0x7000, example_wake 6 0x8000]
        example_state).2.map iteration.unmap_calls
      = [[.munmap 0x7000 64, .xclFreeBO 5],
         [.munmap 0x8000 64, .xclFreeBO 6, .munmap 0x8000 64, .xclFreeBO 6]]) ∧
    (softKernelLoop example_args [example_wake 5 0x7000, example_wake 6 0x8000]
        example_state).1.bo_list = [1, 1] := by
  refine ⟨?_, ?_, ?_⟩ <;> decide


theorem read64_eq_bytes64 (rf : regfile) (w : Nat) : read64 rf w = bytes64 rf (4 * w) := by
  have e0 : (4 * w + 0) / 4 = w := by omega
  have e1 : (4 * w + 1) / 4 = w := by omega
  have e2 : (4 * w + 2) / 4 = w := by omega
  have e3 : (4 * w + 3) / 4 = w := by omega
  have e4 : (4 * w + 4) / 4 = w + 1 := by omega
  have e5 : (4 * w + 5) / 4 = w + 1 := by omega
  have e6 : (4 * w + 6) / 4 = w + 1 := by omega
  have e7 : (4 * w + 7) / 4 = w + 1 := by omega
  have m0 : (4 * w + 0) % 4 = 0 := by omega
  have m1 : (4 * w + 1) % 4 = 1 := by omega
  have m2 : (4 * w + 2) % 4 = 2 := by omega
  have m3 : (4 * w + 3) % 4 = 3 := by omega
  have m4 : (4 * w + 4) % 4 = 0 := by omega
  have m5 : (4 * w + 5) % 4 = 1 := by omega
  have m6 : (4 * w + 6) % 4 = 2 := by omega
  have m7 : (4 * w + 7) % 4 = 3 := by omega
  simp only [read64, bytes64, byte_at, List.range, List.range.loop, List.map, List.sum_cons,
    List.sum_nil, e0, e1, e2, e3, e4, e5, e6, e7, m0, m1, m2, m3, m4, m5, m6, m7]
  have ha : read32 rf w < 4294967296 := Nat.mod_lt _ (by norm_num)
  have hb : read32 rf (w + 1) < 4294967296 := Nat.mod_lt _ (by norm_num)
  generalize read32 rf w = a at ha ⊢
  generalize read32 rf (w + 1) = b at hb ⊢
  norm_num
  omega

theorem to_uint32_to_int32 (r : Int) : to_uint32 (to_int32 r) = (r % 2 ^ 32).toNat := by
  unfold to_uint32 to_int32
  congr 1
  norm_num
  omega

theorem map_arg_regs (e : wake) (i : Nat) (a : kernel_argument) (s : loop_state) :
    (map_arg e i a s).1.args_from_host = s.args_from_host := by
  unfold map_arg
  cases a.type <;> rfl

theorem map_args_regs (e : wake) (args : List kernel_argument) :
    ∀ (i : Nat) (s : loop_state), (map_args e i args s).1.args_from_host = s.args_from_host := by
  induction args with
  | nil => intro i s; rfl
  | cons a rest ih =>
    intro i s
    simp only [map_args]
    rw [ih, map_arg_regs]

theorem at_call_regs (args : List kernel_argument) (e : wake) (s : loop_state) :
    (at_call args e s).args_from_host = e.host s.args_from_host := by
  unfold at_call
  split
  · rfl
  · rw [map_args_regs]
    rfl

theorem legacy_iff (args : List kernel_argument) : legacy args = true ↔ spec_legacy args := by
  unfold legacy spec_legacy
  match args with
  | [] => simp
  | [r] => simp
  | [r, a] =>
    simp only [List.length_cons, List.length_nil, List.get?, List.isEmpty]
    constructor
    · intro h
      exact Or.inr ⟨r, a, rfl, by simpa using h⟩
    · rintro (h | ⟨r', a', h, hn⟩)
      · exact absurd h (by simp)
      · simp only [List.cons.injEq, and_true] at h
        rw [h.2]
        simpa using hn
  | r :: a :: b :: rest => simp

/-- C7: a command that is dispatched (zero wait-return code, start bit
set) takes the legacy branch in the map, call and unmap phases alike when the
table is empty or consists of the return slot followed by exactly one
argument named `"ops"`, and takes the generic branch in all three phases
otherwise.  On the legacy branch the kernel call is
`old_kernel(&args_from_host[1], &ops)` and nothing is mapped or released; on the
generic branch it is `ffi_call` with the prepared argument pointers. -/
theorem legacy_path_iff (args : List kernel_argument) (e : wake) (s : loop_state)
    (hret : e.ret = 0) (hstart : read32 (e.host s.args_from_host) 0 % 2 = 1) :
    (legacy args = true ↔ spec_legacy args) ∧
    (spec_legacy args →
      (iterate args e s).2.paths = some (.legacy, .legacy, .legacy) ∧
      (iterate args e s).2.kernel_call = some (.old_kernel 1) ∧
      (iterate args e s).2.map_calls = [] ∧ (iterate args e s).2.unmap_calls = []) ∧
    (¬ spec_legacy args →
      (iterate args e s).2.paths = some (.generic, .generic, .generic) ∧
      (iterate args e s).2.kernel_call
        = some (.ffi_call ((List.range args.length).map (at_call args e s).ffi_arg_values))) := by
  have hs : ¬ (read32 (woken e s).args_from_host 0 % 2 = 0) := by
    simp only [woken]
    omega
  refine ⟨legacy_iff args, ?_, ?_⟩
  · intro h
    have hl : legacy args = true := (legacy_iff args).2 h
    simp [iterate, hret, hs, hl, iteration.paths, iteration.kernel_call, iteration.map_calls,
      iteration.unmap_calls]
  · intro h
    have hl : legacy args = false := by
      cases hb : legacy args with
      | false => rfl
      | true => exact absurd ((legacy_iff args).1 hb) h
    simp [iterate, hret, hs, hl, iteration.paths, iteration.kernel_call]

/-- C7 at a concrete input: the table (scalar at 8, buffer at 16) does not
meet the rule and is dispatched on the generic path. -/
theorem legacy_path_iff_witness :
    (example_wake 5 0x7000).ret = 0 ∧
    read32 ((example_wake 5 0x7000).host example_state.args_from_host) 0 % 2 = 1 ∧
    ¬ spec_legacy example_args ∧
    (iterate example_args (example_wake 5 0x7000) example_state).2.paths
      = some (.generic, .generic, .generic) :=
  ⟨rfl, by decide,
    fun h => absurd ((legacy_path_iff example_args (example_wake 5 0x7000) example_state rfl
      (by decide)).1.2 h) (by decide),
    ((legacy_path_iff example_args (example_wake 5 0x7000) example_state rfl (by decide)).2.2
      (fun h => absurd ((legacy_iff example_args).2 h) (by decide))).1⟩

/-- C9: for a command that is dispatched (zero wait-return code, start bit
set), on either path, with `r` the value the kernel entry point returns at the
call: afterwards word 1 of the register file is `r` reduced modulo `2 ^ 32`,
every other word is as the kernel call left it, and a word other than word 1
that the kernel left as it found it still holds what it held when the worker
woke up. -/
theorem kernel_return_in_word_one (args : List kernel_argument) (e : wake) (s : loop_state)
    (hret : e.ret = 0) (hstart : read32 (e.host s.args_from_host) 0 % 2 = 1) :
    (iterate args e s).1.args_from_host 1
      = ((e.kernel (at_call args e s)).1 % 2 ^ 32).toNat ∧
    (∀ w, w ≠ 1 →
      (iterate args e s).1.args_from_host w = (e.kernel (at_call args e s)).2 w) ∧
    (∀ w, w ≠ 1 →
      (e.kernel (at_call args e s)).2 w = (at_call args e s).args_from_host w →
      (iterate args e s).1.args_from_host w = e.host s.args_from_host w) := by
  have hs : ¬ (read32 (woken e s).args_from_host 0 % 2 = 0) := by
    simp only [woken]
    omega
  have h1 : (iterate args e s).1.args_from_host
      = store (e.kernel (at_call args e s)).2 1
          (to_uint32 (to_int32 (e.kernel (at_call args e s)).1)) := by
    simp [iterate, hret, hs]
  refine ⟨?_, ?_, ?_⟩
  · rw [h1, to_uint32_to_int32]
    simp [store]
  · intro w hw
    rw [h1]
    simp [store, hw]
  · intro w hw hk
    rw [h1, ← at_call_regs args e s, ← hk]
    simp [store, hw]

/-- C9 at a concrete input: the example kernel returns 9. -/
theorem kernel_return_in_word_one_witness :
    (example_wake 5 0x7000).ret = 0 ∧
    read32 ((example_wake 5 0x7000).host example_state.args_from_host) 0 % 2 = 1 ∧
    (iterate example_args (example_wake 5 0x7000) example_state).1.args_from_host 1 = 9 :=
  ⟨rfl, by decide,
    (kernel_return_in_word_one example_args (example_wake 5 0x7000) example_state rfl
      (by decide)).1⟩

theorem map_arg_calls_aligned (e : wake) (i : Nat) (a : kernel_argument) (s : loop_state)
    (h4 : a.offset % 4 = 0) :
    (map_arg e i a s).2 =
      match a.type with
      | .global =>
        [.xclGetHostBO (bytes64 s.args_from_host a.offset) (bytes64 s.args_from_host (a.offset + 8)),
         .xclMapBO (e.xclGetHostBO (bytes64 s.args_from_host a.offset)
            (bytes64 s.args_from_host (a.offset + 8)) % 2 ^ 32) true]
      | .scalar => [] := by
  have ha : 4 * (a.offset / 4) = a.offset := by omega
  have hb : 4 * (a.offset / 4 + 2) = a.offset + 8 := by omega
  unfold map_arg
  cases a.type with
  | scalar => rfl
  | global =>
    simp only [read64_eq_bytes64, ha, hb]

theorem map_args_values_below (e : wake) (args : List kernel_argument) :
    ∀ (k : Nat) (s : loop_state) (i : Nat), i < k →
      (map_args e k args s).1.ffi_arg_values i = s.ffi_arg_values i := by
  induction args with
  | nil => intro k s i _; rfl
  | cons a rest ih =>
    intro k s i hi
    simp only [map_args]
    rw [ih (k + 1) _ i (by omega)]
    unfold map_arg
    have hne : i ≠ k := by omega
    cases a.type <;> simp [store, hne]

theorem map_args_values (e : wake) (args : List kernel_argument) :
    ∀ (k : Nat) (s : loop_state) (j : Nat) (a : kernel_argument), args.get? j = some a →
      (map_args e k args s).1.ffi_arg_values (k + j) =
        match a.type with
        | .global => .bos (k + j)
        | .scalar => .args_from_host (a.offset / 4) := by
  induction args with
  | nil => intro k s j a h; simp at h
  | cons a' rest ih =>
    intro k s j a h
    simp only [map_args]
    cases j with
    | zero =>
      simp only [List.get?, Option.some.injEq] at h
      subst h
      simp only [Nat.add_zero]
      rw [map_args_values_below e rest (k + 1) _ k (by omega)]
      unfold map_arg
      cases a'.type <;> simp [store]
    | succ j =>
      simp only [List.get?] at h
      have := ih (k + 1) (map_arg e k a' s).1 j a h
      rw [show k + (j + 1) = k + 1 + j by omega]
      exact this

theorem map_args_calls_aligned (e : wake) (args : List kernel_argument) :
    ∀ (k : Nat) (s : loop_state), (∀ a ∈ args, a.offset % 4 = 0) →
      (map_args e k args s).2 = args.flatMap (fun a =>
        match a.type with
        | .global =>
          [.xclGetHostBO (bytes64 s.args_from_host a.offset)
              (bytes64 s.args_from_host (a.offset + 8)),
           .xclMapBO (e.xclGetHostBO (bytes64 s.args_from_host a.offset)
              (bytes64 s.args_from_host (a.offset + 8)) % 2 ^ 32) true]
        | .scalar => []) := by
  induction args with
  | nil => intro k s _; rfl
  | cons a rest ih =>
    intro k s h4
    simp only [map_args, List.flatMap_cons]
    rw [ih (k + 1) _ (fun b hb => h4 b (List.mem_cons_of_mem _ hb)),
      map_arg_calls_aligned e k a s (h4 a (List.mem_cons_self _ _)), map_arg_regs]

/-- C8 as amended: on the generic path, for a table whose byte offsets are
all multiples of 4 and every register file, the calls of the mapping loop
are, descriptor by descriptor in table order, nothing for a scalar and, for a
buffer at byte offset `o`, `xclGetHostBO` with the 64-bit value held in bytes
`[o, o + 8)` as address and the 64-bit value held in bytes `[o + 8, o + 16)` as
size, followed by `xclMapBO` of the handle it returned; the argument pointer of
a scalar descriptor at byte offset `o` is the address of byte `o` of the
register file, and the argument pointer of a buffer descriptor is the address
of its entry of `bos`. -/
theorem map_phase_reads_descriptor (e : wake) (args : List kernel_argument) (s : loop_state)
    (h4 : ∀ a ∈ args, a.offset % 4 = 0) :
    (map_args e 0 args s).2 = args.flatMap (fun a =>
        match a.type with
        | .global =>
          [.xclGetHostBO (bytes64 s.args_from_host a.offset)
              (bytes64 s.args_from_host (a.offset + 8)),
           .xclMapBO (e.xclGetHostBO (bytes64 s.args_from_host a.offset)
              (bytes64 s.args_from_host (a.offset + 8)) % 2 ^ 32) true]
        | .scalar => []) ∧
    (∀ i a, args.get? i = some a → a.type = .scalar →
      ((map_args e 0 args s).1.ffi_arg_values i).byte = some a.offset) ∧
    (∀ i a, args.get? i = some a → a.type = .global →
      (map_args e 0 args s).1.ffi_arg_values i = .bos i) := by
  refine ⟨map_args_calls_aligned e args 0 s h4, ?_, ?_⟩
  · intro i a hi hty
    have h := map_args_values e args 0 s i a hi
    rw [Nat.zero_add] at h
    rw [h, hty]
    have : a.offset % 4 = 0 := h4 a (List.get?_mem hi)
    simp only [arg_ptr.byte, Option.some.injEq]
    omega
  · intro i a hi hty
    have h := map_args_values e args 0 s i a hi
    rw [Nat.zero_add] at h
    rw [h, hty]

/-- C8 as amended, at the input of the specification: with the buffer
entry (address `0x1000`, size 64) at offset 16, the mapping loop resolves and
maps exactly one buffer, of 64 bytes at address `0x1000`. -/
theorem map_phase_reads_descriptor_witness :
    (∀ a ∈ example_args, a.offset % 4 = 0) ∧
    (map_args (example_wake 5 0x7000) 0 example_args (woken (example_wake 5 0x7000) example_state)).2
      = [.xclGetHostBO 0x1000 64, .xclMapBO 5 true] ∧
    (map_args (example_wake 5 0x7000) 0 example_args
      (woken (example_wake 5 0x7000) example_state)).1.bo_list = [1] :=
  ⟨by decide,
    (map_phase_reads_descriptor (example_wake 5 0x7000) example_args
      (woken (example_wake 5 0x7000) example_state) (by decide)).1.trans (by decide),
    by decide⟩

/-- C8 as stated fails for a byte offset that is not a multiple of 4: for a
buffer descriptor at byte offset 18 the address passed to `xclGetHostBO` is the
value held in bytes `[16, 24)`, here `0x1000`, not the value held in bytes
`[18, 26)`, here `64 * 2 ^ 48`; and the pointer of a scalar descriptor at byte
offset 18 is the address of byte 16. -/
theorem unaligned_offset_reads_word_boundary :
    (map_arg (example_wake 5 0x7000) 0 ⟨"buf", 18, .global⟩
        (woken (example_wake 5 0x7000) example_state)).2
      = [.xclGetHostBO 0x1000 64, .xclMapBO 5 true] ∧
    bytes64 example_regs 18 = 64 * 2 ^ 48 ∧
    bytes64 example_regs 18 ≠ 0x1000 ∧
    ((map_arg (example_wake 5 0x7000) 0 ⟨"in", 18, .scalar⟩
        (woken (example_wake 5 0x7000) example_state)).1.ffi_arg_values 0).byte = some 16 := by
  refine ⟨by decide, by decide, by decide, by decide⟩
end skd

namespace context_mgr

theorem test_error (b : bitset) (pos : Nat) (e : exception) (h : b.test pos = .error e) :
    e = .out_of_range := by
  unfold bitset.test at h
  by_cases hp : pos < max_cus
  · simp [hp] at h
  · simp only [hp, if_false, Except.error.injEq] at h
    exact h.symm

theorem open_and_set_of_error {D : Type} (dev : device D) (m : device_context_mgr D)
    (uuid : Nat) (ipidx : cuidx_type) (shared : Bool) (what : String)
    (hd : dev.open_context m.m_device uuid ipidx.index shared = .error what) :
    open_and_set dev uuid ipidx shared m
      = ⟨.threw (.device_error what), m, 0, [.open_context uuid ipidx.index shared], 0⟩ := by
  simp [open_and_set, hd]

theorem open_and_set_device_error {D : Type} (dev : device D) (m : device_context_mgr D)
    (uuid : Nat) (ipidx : cuidx_type) (shared : Bool) (what : String)
    (hlt : ctxidx ipidx < max_cus)
    (hc : (open_and_set dev uuid ipidx shared m).completion = .threw (.device_error what)) :
    dev.open_context m.m_device uuid ipidx.index shared = .error what := by
  unfold open_and_set at hc
  cases hd : dev.open_context m.m_device uuid ipidx.index shared with
  | error w =>
    simp only [hd] at hc
    simp only [completion.threw.injEq, exception.device_error.injEq] at hc
    rw [hc]
  | ok d => simp [hd, bitset.set, hlt] at hc

theorem open_device_error {D : Type} (dev : device D) (uuid : Nat) (ipidx : cuidx_type)
    (shared : Bool) (what : String) (ws : List (wakeup D)) :
    ∀ (m : device_context_mgr D),
      (device_context_mgr.open dev uuid ipidx shared m ws).completion
          = .threw (.device_error what) →
      (device_context_mgr.open dev uuid ipidx shared m ws).mgr
          = after_wakeups m (ws.take (device_context_mgr.open dev uuid ipidx shared m ws).waits) ∧
      (get_ctx (device_context_mgr.open dev uuid ipidx shared m ws).mgr ipidx).test (ctxidx ipidx)
          = .ok false ∧
      dev.open_context (device_context_mgr.open dev uuid ipidx shared m ws).mgr.m_device
          uuid ipidx.index shared = .error what := by
  induction ws with
  | nil =>
    intro m hc
    cases ht : (get_ctx m ipidx).test (ctxidx ipidx) with
    | error e =>
      have he := test_error _ _ e ht
      subst he
      simp [device_context_mgr.open, ht] at hc
    | ok b =>
      cases b with
      | true => simp [device_context_mgr.open, ht] at hc
      | false =>
        have hlt : ctxidx ipidx < max_cus := ((test_eq_ok_iff _ _ _).1 ht).1
        rw [open_of_clear dev m uuid ipidx shared [] ht] at hc ⊢
        have hd := open_and_set_device_error dev m uuid ipidx shared what hlt hc
        rw [open_and_set_of_error dev m uuid ipidx shared what hd]
        exact ⟨rfl, ht, hd⟩
  | cons w rest ih =>
    intro m hc
    cases ht : (get_ctx m ipidx).test (ctxidx ipidx) with
    | error e =>
      have he := test_error _ _ e ht
      subst he
      simp [device_context_mgr.open, ht] at hc
    | ok b =>
      cases b with
      | true =>
        cases hw : w.status with
        | timeout => simp [device_context_mgr.open, ht, hw] at hc
        | no_timeout =>
          have e : device_context_mgr.open dev uuid ipidx shared m (w :: rest)
              = (device_context_mgr.open dev uuid ipidx shared (w.others m) rest).add_wait := by
            simp [device_context_mgr.open, ht, hw]
          rw [e] at hc ⊢
          have h := ih (w.others m) hc
          simp only [result.add_wait, List.take_succ_cons, after_wakeups]
          exact h
      | false =>
        have hlt : ctxidx ipidx < max_cus := ((test_eq_ok_iff _ _ _).1 ht).1
        rw [open_of_clear dev m uuid ipidx shared (w :: rest) ht] at hc ⊢
        have hd := open_and_set_device_error dev m uuid ipidx shared what hlt hc
        rw [open_and_set_of_error dev m uuid ipidx shared what hd]
        exact ⟨rfl, ht, hd⟩

/-- C11: no partial success.  When the slot bit is clear and the device's
`open_context` throws, `open` throws that failure, having made that one device
call, and leaves the manager as it was (the slot bit clear, every other bit
unchanged); when the slot bit is set and the device's `close_context` throws,
`close` throws that failure without `notify_all` and leaves the manager as it
was (the slot bit set).  More generally an `open` that ends with a device
failure, also after waits, leaves the manager exactly as the other threads left
it, with the slot bit clear, and a `close` that ends with a device failure
leaves the manager as it found it, with the slot bit set. -/
theorem device_failure_leaves_bits {D : Type} (dev : device D) (m : device_context_mgr D)
    (uuid : Nat) (ipidx : cuidx_type) (shared : Bool) (what : String) (ws : List (wakeup D)) :
    ((get_ctx m ipidx).test (ctxidx ipidx) = .ok false →
      dev.open_context m.m_device uuid ipidx.index shared = .error what →
      device_context_mgr.open dev uuid ipidx shared m ws
        = ⟨.threw (.device_error what), m, 0, [.open_context uuid ipidx.index shared], 0⟩) ∧
    ((get_ctx m ipidx).test (ctxidx ipidx) = .ok true →
      dev.close_context m.m_device uuid ipidx.index = .error what →
      device_context_mgr.close dev uuid ipidx m
        = ⟨.threw (.device_error what), m, 0, [.close_context uuid ipidx.index], 0⟩) ∧
    ((device_context_mgr.open dev uuid ipidx shared m ws).completion
        = .threw (.device_error what) →
      (device_context_mgr.open dev uuid ipidx shared m ws).mgr
          = after_wakeups m (ws.take (device_context_mgr.open dev uuid ipidx shared m ws).waits) ∧
      (get_ctx (device_context_mgr.open dev uuid ipidx shared m ws).mgr ipidx).test (ctxidx ipidx)
          = .ok false) ∧
    ((device_context_mgr.close dev uuid ipidx m).completion = .threw (.device_error what) →
      (device_context_mgr.close dev uuid ipidx m).mgr = m ∧
      (get_ctx m ipidx).test (ctxidx ipidx) = .ok true) := by
  refine ⟨?_, ?_, ?_, ?_⟩
  · intro hclear hd
    rw [open_of_clear dev m uuid ipidx shared ws hclear,
      open_and_set_of_error dev m uuid ipidx shared what hd]
  · intro hset hd
    simp [device_context_mgr.close, hset, hd]
  · intro hc
    exact ⟨(open_device_error dev uuid ipidx shared what ws m hc).1,
      (open_device_error dev uuid ipidx shared what ws m hc).2.1⟩
  · intro hc
    cases ht : (get_ctx m ipidx).test (ctxidx ipidx) with
    | error e =>
      have he := test_error _ _ e ht
      subst he
      simp [device_context_mgr.close, ht] at hc
    | ok b =>
      cases b with
      | false => simp [device_context_mgr.close, ht] at hc
      | true =>
        have hlt : ctxidx ipidx < max_cus := ((test_eq_ok_iff _ _ _).1 ht).1
        cases hd : dev.close_context m.m_device uuid ipidx.index with
        | error w => simp [device_context_mgr.close, ht, hd]
        | ok d => simp [device_context_mgr.close, ht, hd, bitset.reset, hlt] at hc

/-- C11 at a concrete input: the device throws `"EIO"`; `open` of CU 3 on a
fresh manager and `close` of CU 3 on a manager that holds it. -/
theorem device_failure_leaves_bits_witness :
    (device_context_mgr.open broken_device 7 cu3 true fresh_mgr []).completion
      = .threw (.device_error "EIO") ∧
    (device_context_mgr.open broken_device 7 cu3 true fresh_mgr []).mgr = fresh_mgr ∧
    (device_context_mgr.close broken_device 7 cu3
        (device_context_mgr.open context_counter 7 cu3 true fresh_mgr []).mgr).mgr
      = (device_context_mgr.open context_counter 7 cu3 true fresh_mgr []).mgr :=
  ⟨congrArg result.completion
      ((device_failure_leaves_bits broken_device fresh_mgr 7 cu3 true "EIO" []).1 rfl rfl),
    congrArg result.mgr
      ((device_failure_leaves_bits broken_device fresh_mgr 7 cu3 true "EIO" []).1 rfl rfl),
    (congrArg result.mgr
      ((device_failure_leaves_bits broken_device
        (device_context_mgr.open context_counter 7 cu3 true fresh_mgr []).mgr 7 cu3 true "EIO"
        []).2.1 rfl rfl)).trans rfl⟩

theorem open_and_set_waits {D : Type} (dev : device D) (m : device_context_mgr D)
    (uuid : Nat) (ipidx : cuidx_type) (shared : Bool) :
    (open_and_set dev uuid ipidx shared m).waits = 0 ∧
    (open_and_set dev uuid ipidx shared m).completion ≠ .waiting := by
  unfold open_and_set
  cases dev.open_context m.m_device uuid ipidx.index shared with
  | error w => simp
  | ok d =>
    cases (get_ctx m ipidx).set (ctxidx ipidx) with
    | error e => simp
    | ok b => simp

theorem open_waits_le {D : Type} (dev : device D) (uuid : Nat) (ipidx : cuidx_type)
    (shared : Bool) (ws : List (wakeup D)) :
    ∀ (m : device_context_mgr D),
      (device_context_mgr.open dev uuid ipidx shared m ws).waits ≤ notifications ws + 1 := by
  induction ws with
  | nil =>
    intro m
    cases ht : (get_ctx m ipidx).test (ctxidx ipidx) with
    | error e => simp [device_context_mgr.open, ht]
    | ok b =>
      cases b with
      | true => simp [device_context_mgr.open, ht, notifications]
      | false =>
        rw [open_of_clear dev m uuid ipidx shared [] ht,
          (open_and_set_waits dev m uuid ipidx shared).1]
        omega
  | cons w rest ih =>
    intro m
    cases ht : (get_ctx m ipidx).test (ctxidx ipidx) with
    | error e => simp [device_context_mgr.open, ht]
    | ok b =>
      cases b with
      | true =>
        cases hw : w.status with
        | timeout => simp [device_context_mgr.open, ht, hw, notifications]
        | no_timeout =>
          have e : device_context_mgr.open dev uuid ipidx shared m (w :: rest)
              = (device_context_mgr.open dev uuid ipidx shared (w.others m) rest).add_wait := by
            simp [device_context_mgr.open, ht, hw]
          have h := ih (w.others m)
          rw [e]
          simp only [result.add_wait, notifications, hw]
          omega
      | false =>
        rw [open_of_clear dev m uuid ipidx shared (w :: rest) ht,
          (open_and_set_waits dev m uuid ipidx shared).1]
        omega

theorem open_ends_at_timeout {D : Type} (dev : device D) (uuid : Nat) (ipidx : cuidx_type)
    (shared : Bool) (ws : List (wakeup D)) :
    ∀ (m : device_context_mgr D), (∃ w ∈ ws, w.status = .timeout) →
      (device_context_mgr.open dev uuid ipidx shared m ws).completion ≠ .waiting := by
  induction ws with
  | nil =>
    intro m h
    obtain ⟨w, hw, _⟩ := h
    simp at hw
  | cons w rest ih =>
    intro m h
    cases ht : (get_ctx m ipidx).test (ctxidx ipidx) with
    | error e => simp [device_context_mgr.open, ht]
    | ok b =>
      cases b with
      | true =>
        cases hw : w.status with
        | timeout => simp [device_context_mgr.open, ht, hw]
        | no_timeout =>
          have e : device_context_mgr.open dev uuid ipidx shared m (w :: rest)
              = (device_context_mgr.open dev uuid ipidx shared (w.others m) rest).add_wait := by
            simp [device_context_mgr.open, ht, hw]
          rw [e]
          simp only [result.add_wait]
          apply ih (w.others m)
          obtain ⟨t, htm, hts⟩ := h
          rcases List.mem_cons.1 htm with h1 | h1
          · rw [h1, hw] at hts
            exact absurd hts (by decide)
          · exact ⟨t, h1, hts⟩
      | false =>
        rw [open_of_clear dev m uuid ipidx shared (w :: rest) ht]
        exact (open_and_set_waits dev m uuid ipidx shared).2

/-- C15 as amended: for every `open` call and every sequence of wake-ups,
the number of `wait_for` calls is at most one more than the number of
notifications (wake-ups that are not time-outs) in the sequence, so at most one
when no notification arrives and none when the slot bit is clear at the call;
and when the sequence holds a time-out the call has ended (returned or thrown)
by then. -/
theorem open_waits_bounded {D : Type} (dev : device D) (m : device_context_mgr D) (uuid : Nat)
    (ipidx : cuidx_type) (shared : Bool) (ws : List (wakeup D)) :
    (device_context_mgr.open dev uuid ipidx shared m ws).waits ≤ notifications ws + 1 ∧
    (notifications ws = 0 →
      (device_context_mgr.open dev uuid ipidx shared m ws).waits ≤ 1) ∧
    ((get_ctx m ipidx).test (ctxidx ipidx) = .ok false →
      (device_context_mgr.open dev uuid ipidx shared m ws).waits = 0) ∧
    ((∃ w ∈ ws, w.status = .timeout) →
      (device_context_mgr.open dev uuid ipidx shared m ws).completion ≠ .waiting) := by
  refine ⟨open_waits_le dev uuid ipidx shared ws m, ?_, ?_, ?_⟩
  · intro h0
    have h := open_waits_le dev uuid ipidx shared ws m
    omega
  · intro hclear
    rw [open_of_clear dev m uuid ipidx shared ws hclear]
    exact (open_and_set_waits dev m uuid ipidx shared).1
  · exact open_ends_at_timeout dev uuid ipidx shared ws m

/-- C15 as amended, at a concrete input: CU 3 is held and the only wake-up
is a time-out; `open` makes one wait and throws. -/
theorem open_waits_bounded_witness :
    notifications [(alone .timeout : wakeup (Nat → Int))] = 0 ∧
    (device_context_mgr.open context_counter 7 cu3 true
        (device_context_mgr.open context_counter 7 cu3 true fresh_mgr []).mgr
        [alone .timeout]).waits ≤ 1 ∧
    (device_context_mgr.open context_counter 7 cu3 true
        (device_context_mgr.open context_counter 7 cu3 true fresh_mgr []).mgr
        [alone .timeout]).completion ≠ .waiting :=
  ⟨rfl,
    (open_waits_bounded context_counter
      (device_context_mgr.open context_counter 7 cu3 true fresh_mgr []).mgr 7 cu3 true
      [alone .timeout]).2.1 rfl,
    (open_waits_bounded context_counter
      (device_context_mgr.open context_counter 7 cu3 true fresh_mgr []).mgr 7 cu3 true
      [alone .timeout]).2.2.2 ⟨alone .timeout, List.mem_singleton.2 rfl, rfl⟩⟩

/-- C15 as stated fails: with CU 3 held, a notification that leaves the bit
set followed by a time-out makes `open` wait twice before it throws; and a
notification that leaves the bit set followed by a notification after the
holder's `close` makes `open` wait twice before it returns. -/
theorem open_waits_twice :
    (device_context_mgr.open context_counter 7 cu3 true
        (device_context_mgr.open context_counter 7 cu3 true fresh_mgr []).mgr
        [alone .no_timeout, alone .timeout]).waits = 2 ∧
    (device_context_mgr.open context_counter 7 cu3 true
        (device_context_mgr.open context_counter 7 cu3 true fresh_mgr []).mgr
        [alone .no_timeout, alone .timeout]).completion
      = .threw (.runtime_error "aquiring cu context timed out") ∧
    (device_context_mgr.open context_counter 7 cu3 true
        (device_context_mgr.open context_counter 7 cu3 true fresh_mgr []).mgr
        [alone .no_timeout,
          ⟨.no_timeout, fun m => (device_context_mgr.close context_counter 7 cu3 m).mgr⟩]).waits
      = 2 ∧
    (device_context_mgr.open context_counter 7 cu3 true
        (device_context_mgr.open context_counter 7 cu3 true fresh_mgr []).mgr
        [alone .no_timeout,
          ⟨.no_timeout, fun m => (device_context_mgr.close context_counter 7 cu3 m).mgr⟩]).completion
      = .returned ∧
    ¬ ((device_context_mgr.open context_counter 7 cu3 true
        (device_context_mgr.open context_counter 7 cu3 true fresh_mgr []).mgr
        [alone .no_timeout, alone .timeout]).waits ≤ 1) := by
  refine ⟨rfl, rfl, rfl, rfl, by decide⟩

theorem ctxidx_in_range (a : cuidx_type) (ha : in_range a) : ctxidx a < max_cus := by
  unfold ctxidx
  by_cases h : a.index = virtual_cu_idx
  · simp [h, max_cus]
  · rcases ha with h1 | h1
    · exact absurd h1 h
    · simp only [h, if_false]
      simp only [max_cus] at h1 ⊢
      omega

theorem slot_ne_of_index_ne (a b : cuidx_type) (hlayout : same_pair_same_index a b)
    (hne : a.index ≠ b.index) (ha : in_range a) (hb : in_range b) : slot a ≠ slot b := by
  intro hs
  simp only [slot, Prod.mk.injEq, ctxidx] at hs
  obtain ⟨hd, hi⟩ := hs
  by_cases h1 : a.index = virtual_cu_idx
  · by_cases h2 : b.index = virtual_cu_idx
    · exact hne (h1.trans h2.symm)
    · have hb' : b.domain_index < max_cus - 1 := by
        rcases hb with h | h
        · exact absurd h h2
        · exact h
      simp only [h1, h2, if_true, if_false] at hi
      omega
  · have ha' : a.domain_index < max_cus - 1 := by
      rcases ha with h | h
      · exact absurd h h1
      · exact h
    by_cases h2 : b.index = virtual_cu_idx
    · simp only [h1, h2, if_true, if_false] at hi
      omega
    · simp only [h1, h2, if_false] at hi
      exact hne (hlayout hd hi)

/-- C17: for two CU indices with different `index` words, each of them
the virtual CU or with `domain_index < max_cus - 1`, where the `index` word is
determined by the (domain, domain_index) pair: the (slot set, bit position)
pairs that `get_ctx` and `ctxidx` give differ and both bit positions are below
`max_cus`.  Hence a returning `open` of the one leaves the bit of the other as
it was: when that bit is clear, `open` of the other makes no wait and `close`
of the other throws "not open". -/
theorem distinct_cus_use_distinct_slots (a b : cuidx_type)
    (hlayout : same_pair_same_index a b) (hne : a.index ≠ b.index)
    (ha : in_range a) (hb : in_range b) :
    slot a ≠ slot b ∧ ctxidx a < max_cus ∧ ctxidx b < max_cus ∧
    ∀ (D : Type) (dev : device D) (m : device_context_mgr D) (uuid : Nat) (shared : Bool)
        (ws : List (wakeup D)),
      (get_ctx m a).test (ctxidx a) = .ok false →
      (device_context_mgr.open dev uuid a shared m ws).completion = .returned →
      (get_ctx (device_context_mgr.open dev uuid a shared m ws).mgr b).test (ctxidx b)
          = (get_ctx m b).test (ctxidx b) ∧
      ((get_ctx m b).test (ctxidx b) = .ok false →
        (∀ (uuid2 : Nat) (shared2 : Bool) (ws2 : List (wakeup D)),
          (device_context_mgr.open dev uuid2 b shared2
            (device_context_mgr.open dev uuid a shared m ws).mgr ws2).waits = 0) ∧
        (∀ (uuid2 : Nat),
          (device_context_mgr.close dev uuid2 b
            (device_context_mgr.open dev uuid a shared m ws).mgr).completion
            = .threw (.runtime_error ("ctx " ++ toString b.index ++ " not open")))) := by
  have hs := slot_ne_of_index_ne a b hlayout hne ha hb
  refine ⟨hs, ctxidx_in_range a ha, ctxidx_in_range b hb, ?_⟩
  intro D dev m uuid shared ws hclear hret
  obtain ⟨d, _, hmgr⟩ := open_returned_of_clear dev m uuid a shared ws hclear hret
  have hbit : (get_ctx (device_context_mgr.open dev uuid a shared m ws).mgr b).test (ctxidx b)
      = (get_ctx m b).test (ctxidx b) := by
    rw [hmgr]
    simp only [slot, ne_eq, Prod.mk.injEq, not_and] at hs
    unfold bitset.test
    simp only [get_ctx, put_ctx]
    by_cases hd : b.domain = a.domain
    · have hi : ctxidx b ≠ ctxidx a := fun h => hs hd.symm h.symm
      simp [hd, hi]
    · simp [hd]
  refine ⟨hbit, ?_⟩
  intro hbclear
  have hb2 := hbit.trans hbclear
  refine ⟨?_, ?_⟩
  · intro uuid2 shared2 ws2
    rw [open_of_clear dev _ uuid2 b shared2 ws2 hb2]
    exact (open_and_set_waits dev _ uuid2 b shared2).1
  · intro uuid2
    rw [close_of_clear dev _ uuid2 b hb2]

/-- C17 at a concrete input: the virtual CU and CU 3. -/
theorem distinct_cus_use_distinct_slots_witness :
    same_pair_same_index virtual_cu cu3 ∧ virtual_cu.index ≠ cu3.index ∧
    in_range virtual_cu ∧ in_range cu3 ∧ slot virtual_cu ≠ slot cu3 :=
  ⟨fun h => absurd h (by decide), by decide, Or.inl rfl, Or.inr (by decide),
    (distinct_cus_use_distinct_slots virtual_cu cu3 (fun h => absurd h (by decide)) (by decide)
      (Or.inl rfl) (Or.inr (by decide))).1⟩

theorem not_open_ne_no_manager (n : Nat) :
    ("ctx " ++ toString n ++ " not open") ≠ "No context manager for device" := by
  intro h
  have h2 := congrArg String.data h
  simp only [String.data_append] at h2
  have h3 := congrArg List.head? h2
  simp at h3

theorem open_and_set_ne_no_manager {D : Type} (dev : device D) (m : device_context_mgr D)
    (uuid : Nat) (ipidx : cuidx_type) (shared : Bool) :
    (open_and_set dev uuid ipidx shared m).completion
      ≠ .threw (.runtime_error "No context manager for device") := by
  unfold open_and_set
  cases dev.open_context m.m_device uuid ipidx.index shared with
  | error w => simp
  | ok d =>
    unfold bitset.set
    by_cases hp : ctxidx ipidx < max_cus <;> simp [hp]

theorem open_ne_no_manager {D : Type} (dev : device D) (uuid : Nat) (ipidx : cuidx_type)
    (shared : Bool) (ws : List (wakeup D)) :
    ∀ (m : device_context_mgr D),
      (device_context_mgr.open dev uuid ipidx shared m ws).completion
        ≠ .threw (.runtime_error "No context manager for device") := by
  induction ws with
  | nil =>
    intro m
    cases ht : (get_ctx m ipidx).test (ctxidx ipidx) with
    | error e =>
      have he := test_error _ _ e ht
      subst he
      simp [device_context_mgr.open, ht]
    | ok b =>
      cases b with
      | true => simp [device_context_mgr.open, ht]
      | false =>
        rw [open_of_clear dev m uuid ipidx shared [] ht]
        exact open_and_set_ne_no_manager dev m uuid ipidx shared
  | cons w rest ih =>
    intro m
    cases ht : (get_ctx m ipidx).test (ctxidx ipidx) with
    | error e =>
      have he := test_error _ _ e ht
      subst he
      simp [device_context_mgr.open, ht]
    | ok b =>
      cases b with
      | true =>
        cases hw : w.status with
        | timeout =>
          simp only [device_context_mgr.open, ht, hw]
          decide
        | no_timeout =>
          have e : device_context_mgr.open dev uuid ipidx shared m (w :: rest)
              = (device_context_mgr.open dev uuid ipidx shared (w.others m) rest).add_wait := by
            simp [device_context_mgr.open, ht, hw]
          rw [e]
          exact ih (w.others m)
      | false =>
        rw [open_of_clear dev m uuid ipidx shared (w :: rest) ht]
        exact open_and_set_ne_no_manager dev m uuid ipidx shared

theorem close_ne_no_manager {D : Type} (dev : device D) (uuid : Nat) (ipidx : cuidx_type)
    (m : device_context_mgr D) :
    (device_context_mgr.close dev uuid ipidx m).completion
      ≠ .threw (.runtime_error "No context manager for device") := by
  cases ht : (get_ctx m ipidx).test (ctxidx ipidx) with
  | error e =>
    have he := test_error _ _ e ht
    subst he
    simp [device_context_mgr.close, ht]
  | ok b =>
    cases b with
    | false =>
      rw [close_of_clear dev m uuid ipidx ht]
      simp only [ne_eq, completion.threw.injEq, exception.runtime_error.injEq]
      exact not_open_ne_no_manager ipidx.index
    | true =>
      have hlt : ctxidx ipidx < max_cus := ((test_eq_ok_iff _ _ _).1 ht).1
      cases hd : dev.close_context m.m_device uuid ipidx.index with
      | error w => simp [device_context_mgr.close, ht, hd]
      | ok d => simp [device_context_mgr.close, ht, hd, bitset.reset, hlt]

theorem lock_none_of_not_live {D : Type} (r : registry D) (device : Nat)
    (h : live r device = false) : lock (r.d2cmgr device) = none := by
  unfold live at h
  cases hl : lock (r.d2cmgr device) with
  | none => rfl
  | some c => simp [hl] at h

theorem use_count_pos_of_lock (w : Option cached_mgr) (c : cached_mgr) (h : lock w = some c) :
    w = some c ∧ c.use_count ≠ 0 := by
  unfold lock at h
  cases w with
  | none => simp at h
  | some c' =>
    by_cases h0 : c'.use_count = 0
    · simp [h0] at h
    · simp only [h0, if_false, Option.some.injEq] at h
      subst h
      exact ⟨rfl, h0⟩

theorem release_with_mgr {D : Type} (r : registry D) (device : Nat) (c : cached_mgr)
    (m : device_context_mgr D) (hl : lock (r.d2cmgr device) = some c) :
    release (with_mgr (get_device_context_mgr r device false).1 device
        ⟨c.serial, c.m_d2ctx, c.use_count + 1⟩ m) device c.serial
      = with_mgr r device c m := by
  simp only [get_device_context_mgr, hl, release, with_mgr, if_true]
  congr 1
  funext d
  by_cases hd : d = device <;> simp [hd]

theorem open_context_of_live {D : Type} (dev : device D) (r : registry D) (device : Nat)
    (uuid : Nat) (cuidx : cuidx_type) (shared : Bool) (ws : List (wakeup D)) (c : cached_mgr)
    (hl : lock (r.d2cmgr device) = some c) :
    open_context dev r device uuid cuidx shared ws
      = ⟨with_mgr r device c
          (device_context_mgr.open dev uuid cuidx shared ⟨r.devices device, c.m_d2ctx⟩ ws).mgr,
        (device_context_mgr.open dev uuid cuidx shared ⟨r.devices device, c.m_d2ctx⟩
          ws).completion,
        (device_context_mgr.open dev uuid cuidx shared ⟨r.devices device, c.m_d2ctx⟩ ws).waits,
        (device_context_mgr.open dev uuid cuidx shared ⟨r.devices device, c.m_d2ctx⟩ ws).calls,
        (device_context_mgr.open dev uuid cuidx shared ⟨r.devices device, c.m_d2ctx⟩
          ws).notify_all⟩ := by
  have h := release_with_mgr r device c
    (device_context_mgr.open dev uuid cuidx shared ⟨r.devices device, c.m_d2ctx⟩ ws).mgr hl
  simp only [get_device_context_mgr, hl] at h
  simp only [open_context, get_device_context_mgr, hl]
  rw [h]

theorem close_context_of_live {D : Type} (dev : device D) (r : registry D) (device : Nat)
    (uuid : Nat) (cuidx : cuidx_type) (c : cached_mgr)
    (hl : lock (r.d2cmgr device) = some c) :
    close_context dev r device uuid cuidx
      = ⟨with_mgr r device c
          (device_context_mgr.close dev uuid cuidx ⟨r.devices device, c.m_d2ctx⟩).mgr,
        (device_context_mgr.close dev uuid cuidx ⟨r.devices device, c.m_d2ctx⟩).completion,
        (device_context_mgr.close dev uuid cuidx ⟨r.devices device, c.m_d2ctx⟩).waits,
        (device_context_mgr.close dev uuid cuidx ⟨r.devices device, c.m_d2ctx⟩).calls,
        (device_context_mgr.close dev uuid cuidx ⟨r.devices device, c.m_d2ctx⟩).notify_all⟩ := by
  have h := release_with_mgr r device c
    (device_context_mgr.close dev uuid cuidx ⟨r.devices device, c.m_d2ctx⟩).mgr hl
  simp only [get_device_context_mgr, hl] at h
  simp only [close_context, get_device_context_mgr, hl]
  rw [h]

theorem open_context_of_not_live {D : Type} (dev : device D) (r : registry D) (device : Nat)
    (uuid : Nat) (cuidx : cuidx_type) (shared : Bool) (ws : List (wakeup D))
    (h : live r device = false) :
    open_context dev r device uuid cuidx shared ws
      = ⟨r, .threw (.runtime_error "No context manager for device"), 0, [], 0⟩ := by
  simp [open_context, get_device_context_mgr, lock_none_of_not_live r device h]

theorem close_context_of_not_live {D : Type} (dev : device D) (r : registry D) (device : Nat)
    (uuid : Nat) (cuidx : cuidx_type) (h : live r device = false) :
    close_context dev r device uuid cuidx
      = ⟨r, .threw (.runtime_error "No context manager for device"), 0, [], 0⟩ := by
  simp [close_context, get_device_context_mgr, lock_none_of_not_live r device h]

theorem create_of_lock_none {D : Type} (r : registry D) (device : Nat)
    (hl : lock (r.d2cmgr device) = none) :
    create r device
      = (⟨r.devices,
          fun d => if d = device then some ⟨r.constructed, fun _ _ => false, 1⟩ else r.d2cmgr d,
          r.constructed + 1⟩,
         some ⟨r.constructed, fun _ _ => false, 1⟩) := by
  simp [create, get_device_context_mgr, hl]

theorem get_of_lock_some {D : Type} (r : registry D) (device : Nat) (create : Bool)
    (c : cached_mgr) (hl : lock (r.d2cmgr device) = some c) :
    get_device_context_mgr r device create
      = (⟨r.devices,
          fun d => if d = device then some ⟨c.serial, c.m_d2ctx, c.use_count + 1⟩
            else r.d2cmgr d,
          r.constructed⟩,
         some ⟨c.serial, c.m_d2ctx, c.use_count + 1⟩) := by
  simp [get_device_context_mgr, hl]

/-- C12: with the registry as a map from device address to a weakly held
manager.  When no live manager is cached for the device, `open_context` and
`close_context` throw `runtime_error("No context manager for device")`, make
no device call and leave the registry as it was; when one is live they are the
manager's `open` and `close` on its slot sets, whose result is stored back
with the same identity and owner count.  They throw that error exactly when no
manager is live, and in no case construct a manager.  No manager is live in a
process that never called `create`, nor after the reference returned by a
`create` that constructed the manager has been released. -/
theorem context_calls_need_live_manager {D : Type} (dev : device D) (r : registry D)
    (device : Nat) (uuid : Nat) (cuidx : cuidx_type) (shared : Bool) (ws : List (wakeup D)) :
    (live r device = false →
      open_context dev r device uuid cuidx shared ws
        = ⟨r, .threw (.runtime_error "No context manager for device"), 0, [], 0⟩ ∧
      close_context dev r device uuid cuidx
        = ⟨r, .threw (.runtime_error "No context manager for device"), 0, [], 0⟩) ∧
    (∀ c, lock (r.d2cmgr device) = some c →
      open_context dev r device uuid cuidx shared ws
        = ⟨with_mgr r device c
            (device_context_mgr.open dev uuid cuidx shared ⟨r.devices device, c.m_d2ctx⟩ ws).mgr,
          (device_context_mgr.open dev uuid cuidx shared ⟨r.devices device, c.m_d2ctx⟩
            ws).completion,
          (device_context_mgr.open dev uuid cuidx shared ⟨r.devices device, c.m_d2ctx⟩
            ws).waits,
          (device_context_mgr.open dev uuid cuidx shared ⟨r.devices device, c.m_d2ctx⟩
            ws).calls,
          (device_context_mgr.open dev uuid cuidx shared ⟨r.devices device, c.m_d2ctx⟩
            ws).notify_all⟩ ∧
      close_context dev r device uuid cuidx
        = ⟨with_mgr r device c
            (device_context_mgr.close dev uuid cuidx ⟨r.devices device, c.m_d2ctx⟩).mgr,
          (device_context_mgr.close dev uuid cuidx ⟨r.devices device, c.m_d2ctx⟩).completion,
          (device_context_mgr.close dev uuid cuidx ⟨r.devices device, c.m_d2ctx⟩).waits,
          (device_context_mgr.close dev uuid cuidx ⟨r.devices device, c.m_d2ctx⟩).calls,
          (device_context_mgr.close dev uuid cuidx ⟨r.devices device, c.m_d2ctx⟩).notify_all⟩) ∧
    ((open_context dev r device uuid cuidx shared ws).completion
        = .threw (.runtime_error "No context manager for device") ↔ live r device = false) ∧
    ((close_context dev r device uuid cuidx).completion
        = .threw (.runtime_error "No context manager for device") ↔ live r device = false) ∧
    (open_context dev r device uuid cuidx shared ws).reg.constructed = r.constructed ∧
    (close_context dev r device uuid cuidx).reg.constructed = r.constructed ∧
    live (registry.init r.devices) device = false ∧
    (live r device = false →
      live (release (create r device).1 device r.constructed) device = false) := by
  refine ⟨?_, ?_, ?_, ?_, ?_, ?_, ?_, ?_⟩
  · intro h
    exact ⟨open_context_of_not_live dev r device uuid cuidx shared ws h,
      close_context_of_not_live dev r device uuid cuidx h⟩
  · intro c hl
    exact ⟨open_context_of_live dev r device uuid cuidx shared ws c hl,
      close_context_of_live dev r device uuid cuidx c hl⟩
  · constructor
    · intro h
      cases hl : lock (r.d2cmgr device) with
      | none => simp [live, hl]
      | some c =>
        rw [open_context_of_live dev r device uuid cuidx shared ws c hl] at h
        exact absurd h (open_ne_no_manager dev uuid cuidx shared ws _)
    · intro h
      rw [open_context_of_not_live dev r device uuid cuidx shared ws h]
  · constructor
    · intro h
      cases hl : lock (r.d2cmgr device) with
      | none => simp [live, hl]
      | some c =>
        rw [close_context_of_live dev r device uuid cuidx c hl] at h
        exact absurd h (close_ne_no_manager dev uuid cuidx _)
    · intro h
      rw [close_context_of_not_live dev r device uuid cuidx h]
  · cases hl : lock (r.d2cmgr device) with
    | none =>
      rw [open_context_of_not_live dev r device uuid cuidx shared ws (by simp [live, hl])]
    | some c =>
      rw [open_context_of_live dev r device uuid cuidx shared ws c hl]
      rfl
  · cases hl : lock (r.d2cmgr device) with
    | none =>
      rw [close_context_of_not_live dev r device uuid cuidx (by simp [live, hl])]
    | some c =>
      rw [close_context_of_live dev r device uuid cuidx c hl]
      rfl
  · simp [live, registry.init, lock]
  · intro h
    have hl := lock_none_of_not_live r device h
    rw [create_of_lock_none r device hl]
    simp [live, release, lock]

/-- C12 at a concrete input: device 1 in a process that never called `create`. -/
theorem context_calls_need_live_manager_witness :
    live fresh_registry 1 = false ∧
    (open_context context_counter fresh_registry 1 7 cu3 true []).completion
      = .threw (.runtime_error "No context manager for device") ∧
    (open_context context_counter fresh_registry 1 7 cu3 true []).calls = [] :=
  ⟨rfl,
    congrArg api_result.completion
      ((context_calls_need_live_manager context_counter fresh_registry 1 7 cu3 true []).1 rfl).1,
    congrArg api_result.calls
      ((context_calls_need_live_manager context_counter fresh_registry 1 7 cu3 true []).1 rfl).1⟩

/-- C13: `create` per device.  When a live manager is cached for the
device, `create` returns that manager (same identity, same slot sets, one more
owner), constructs nothing and leaves the devices and the cache entries of
every other device as they were.  When none is live it constructs a manager
with all bits clear, owned once, caches it and leaves the other entries as
they were; a following `create` and a following lookup for the same device
return that same manager, with no further construction. -/
theorem create_returns_cached_manager {D : Type} (r : registry D) (device : Nat) :
    (∀ c, lock (r.d2cmgr device) = some c →
      (create r device).2 = some ⟨c.serial, c.m_d2ctx, c.use_count + 1⟩ ∧
      (create r device).1.d2cmgr device = some ⟨c.serial, c.m_d2ctx, c.use_count + 1⟩ ∧
      (create r device).1.constructed = r.constructed ∧
      (create r device).1.devices = r.devices ∧
      ∀ d, d ≠ device → (create r device).1.d2cmgr d = r.d2cmgr d) ∧
    (lock (r.d2cmgr device) = none →
      (create r device).2 = some ⟨r.constructed, fun _ _ => false, 1⟩ ∧
      (create r device).1.d2cmgr device = some ⟨r.constructed, fun _ _ => false, 1⟩ ∧
      (create r device).1.constructed = r.constructed + 1 ∧
      (create r device).1.devices = r.devices ∧
      (∀ d, d ≠ device → (create r device).1.d2cmgr d = r.d2cmgr d) ∧
      (create (create r device).1 device).2 = some ⟨r.constructed, fun _ _ => false, 2⟩ ∧
      (create (create r device).1 device).1.constructed = r.constructed + 1 ∧
      (get_device_context_mgr (create r device).1 device false).2
        = some ⟨r.constructed, fun _ _ => false, 2⟩ ∧
      (get_device_context_mgr (create r device).1 device false).1.constructed
        = r.constructed + 1) := by
  refine ⟨?_, ?_⟩
  · intro c hl
    refine ⟨?_, ?_, ?_, ?_, ?_⟩
    · simp [create, get_device_context_mgr, hl]
    · simp [create, get_device_context_mgr, hl]
    · simp [create, get_device_context_mgr, hl]
    · simp [create, get_device_context_mgr, hl]
    · intro d hd
      simp [create, get_device_context_mgr, hl, hd]
  · intro hl
    refine ⟨?_, ?_, ?_, ?_, ?_, ?_, ?_, ?_, ?_⟩
    · simp [create, get_device_context_mgr, hl]
    · simp [create, get_device_context_mgr, hl]
    · simp [create, get_device_context_mgr, hl]
    · simp [create, get_device_context_mgr, hl]
    · intro d hd
      simp [create, get_device_context_mgr, hl, hd]
    · rw [create_of_lock_none r device hl]
      rw [create, get_of_lock_some _ device true ⟨r.constructed, fun _ _ => false, 1⟩
        (by simp [lock])]
    · rw [create_of_lock_none r device hl]
      rw [create, get_of_lock_some _ device true ⟨r.constructed, fun _ _ => false, 1⟩
        (by simp [lock])]
    · rw [create_of_lock_none r device hl]
      rw [get_of_lock_some _ device false ⟨r.constructed, fun _ _ => false, 1⟩
        (by simp [lock])]
    · rw [create_of_lock_none r device hl]
      rw [get_of_lock_some _ device false ⟨r.constructed, fun _ _ => false, 1⟩
        (by simp [lock])]

/-- C13 at a concrete input: `create` for device 1 in a process that never
called it, then `create` again. -/
theorem create_returns_cached_manager_witness :
    lock (fresh_registry.d2cmgr 1) = none ∧
    (create fresh_registry 1).1.constructed = 1 ∧
    (create (create fresh_registry 1).1 1).1.constructed = 1 ∧
    lock ((create fresh_registry 1).1.d2cmgr 1) = some ⟨0, fun _ _ => false, 1⟩ ∧
    (create (create fresh_registry 1).1 1).1.constructed = (create fresh_registry 1).1.constructed :=
  ⟨rfl, ((create_returns_cached_manager fresh_registry 1).2 rfl).2.2.1,
    ((create_returns_cached_manager fresh_registry 1).2 rfl).2.2.2.2.2.2.1,
    rfl,
    ((create_returns_cached_manager (create fresh_registry 1).1 1).1
      ⟨0, fun _ _ => false, 1⟩ rfl).2.2.1⟩

end context_mgr

namespace skd

/-- C14: a wake-up with a zero wait-return code and bit 0 of register word
0 clear is spurious: the iteration maps no buffer, makes no kernel call,
releases nothing and leaves every local as it was, the register file holding
exactly what the host wrote (word 1 included); the loop then goes on with the
next wake-up. -/
theorem spurious_wakeup (args : List kernel_argument) (e : wake) (s : loop_state)
    (rest : List wake)
    (hret : e.ret = 0) (hstart : read32 (e.host s.args_from_host) 0 % 2 = 0) :
    iterate args e s = (woken e s, .spurious) ∧
    (iterate args e s).2.map_calls = [] ∧
    (iterate args e s).2.kernel_call = none ∧
    (iterate args e s).2.unmap_calls = [] ∧
    (iterate args e s).1.args_from_host = e.host s.args_from_host ∧
    (iterate args e s).1.args_from_host 1 = e.host s.args_from_host 1 ∧
    (iterate args e s).1.kernel_return = s.kernel_return ∧
    (iterate args e s).1.bo_list = s.bo_list ∧
    softKernelLoop args (e :: rest) s
      = ((softKernelLoop args rest (woken e s)).1,
          .spurious :: (softKernelLoop args rest (woken e s)).2) := by
  have hs : read32 (woken e s).args_from_host 0 % 2 = 0 := hstart
  have hi : iterate args e s = (woken e s, .spurious) := by
    simp [iterate, hret, hs]
  refine ⟨hi, ?_, ?_, ?_, ?_, ?_, ?_, ?_, ?_⟩
  · rw [hi]; rfl
  · rw [hi]; rfl
  · rw [hi]; rfl
  · rw [hi]; rfl
  · rw [hi]; rfl
  · rw [hi]; rfl
  · rw [hi]; rfl
  · simp only [softKernelLoop, hi]

/-- C14 at a concrete input: a wake-up without a command, then a command. -/
theorem spurious_wakeup_witness :
    idle_wake.ret = 0 ∧
    read32 (idle_wake.host example_state.args_from_host) 0 % 2 = 0 ∧
    (softKernelLoop example_args [idle_wake, example_wake 5 0x7000] example_state).2.map
        iteration.map_calls
      = [[], [.xclGetHostBO 0x1000 64, .xclMapBO 5 true]] :=
  ⟨rfl, by decide,
    (congrArg (fun r => r.2.map iteration.map_calls)
      (spurious_wakeup example_args idle_wake example_state [example_wake 5 0x7000] rfl
        (by decide)).2.2.2.2.2.2.2.2).trans (by decide)⟩

end skd
